import Mathlib

/-
Verification development for the zrender `Element` node model
(`src/Element.ts`): the state overlay engine (`saveStateToNormal`,
`useState`, `useStates`, `_applyStateObj`, `clearStates`), the
animation-merge algorithm (`animateTo`, `animateFrom`,
`animateToShallow` and the completion countdown), clip-path
attachment (`setClipPath`, `removeClipPath`, `addSelfToZr`,
`removeSelfFromZr`) and dragging (`drift`).

Conventions of the embedding:
* JavaScript objects whose fields the code enumerates statically are
  Lean structures; optional / possibly-`undefined` fields are `Option`.
* `Dictionary<T>` values are association lists `List (String × T)`;
  key iteration order is list order, as in JS insertion order.
* In-place mutation becomes explicit state passing; a thrown
  `Error` becomes an `err` component that, once set, makes the
  remaining steps no-ops (the exception unwinds), while the
  mutations already performed persist, as they do in JS.
* Numbers are `Int` (no claim depends on non-integer arithmetic).
-/

namespace Zr

/-- First-some choice on options: models the JS pattern
`a !== undefined ? a : b` used when merging partial property sets. -/
def firstSome {α : Type} (a b : Option α) : Option α :=
  match a with
  | some v => some v
  | none => b

/-- Lookup in a JS dictionary (association list). -/
def alookup {κ α : Type} [DecidableEq κ] (l : List (κ × α)) (k : κ) : Option α :=
  match l.find? (fun p => p.1 = k) with
  | some p => some p.2
  | none => none

/-- Property write on a JS dictionary: overwrite the existing key or
append a new one. -/
def aset {κ α : Type} [DecidableEq κ] (l : List (κ × α)) (k : κ) (v : α) :
    List (κ × α) :=
  match l with
  | [] => [(k, v)]
  | (k2, v2) :: rest => if k2 = k then (k, v) :: rest else (k2, v2) :: aset rest k v

/-- A 2-vector (`VectorArray` restricted to the two slots the code uses). -/
abbrev Vec := Int × Int

/-- `TextConfig` from Element.ts: the label-layout configuration.
The field `local` of the source is called `localSpace` here because
`local` is a Lean keyword. -/
structure TextConfig where
  position : Option String := none
  rotation : Option Int := none
  offset : Option Vec := none
  distance : Option Int := none
  localSpace : Option Bool := none
  insideFill : Option String := none
  insideStroke : Option String := none
deriving DecidableEq, Repr

/-- The empty object `{}` used as the base of `extend({}, ...)`. -/
def emptyTC : TextConfig := {}

/-- `extend(target, source)` from core/util applied to two text
configs: every key present on `source` overrides `target`. -/
def extendTC (target source : TextConfig) : TextConfig where
  position := firstSome source.position target.position
  rotation := firstSome source.rotation target.rotation
  offset := firstSome source.offset target.offset
  distance := firstSome source.distance target.distance
  localSpace := firstSome source.localSpace target.localSpace
  insideFill := firstSome source.insideFill target.insideFill
  insideStroke := firstSome source.insideStroke target.insideStroke

/-- `ElementState`: a partial property set attached to a state name
(`Pick<ElementProps, ElementStatePropNames>`). -/
structure ElementState where
  position : Option Vec := none
  rotation : Option Int := none
  scale : Option Vec := none
  origin : Option Vec := none
  textConfig : Option TextConfig := none
  ignore : Option Bool := none
deriving DecidableEq, Repr

/-- The `_normalState` snapshot.  `saveStateToNormal` writes every one
of these fields, so all but `textConfig` (which may be `undefined` on
the element itself) are total here. -/
structure NormalState where
  textConfig : Option TextConfig
  position : Vec
  scale : Vec
  rotation : Int
  origin : Vec
  ignore : Bool
deriving DecidableEq, Repr

/-- The `draggable` flag: `boolean | string` in the source. -/
inductive Draggable where
  | bool (b : Bool)
  | mode (s : String)
deriving DecidableEq, Repr

/-- A 6-element affine matrix `[m0, m1, m2, m3, m4, m5]`; `m4`/`m5`
are the horizontal/vertical translation components. -/
structure Mat6 where
  m0 : Int
  m1 : Int
  m2 : Int
  m3 : Int
  m4 : Int
  m5 : Int
deriving DecidableEq, Repr

/-- The identity matrix `[1, 0, 0, 1, 0, 0]` allocated by `drift`
when the element has no matrix yet. -/
def identityMat : Mat6 := ⟨1, 0, 0, 1, 0, 0⟩

/-- The reserved state name `PRESERVED_NORMAL_STATE`. -/
def PRESERVED_NORMAL_STATE : String := "__zr_normal__"

/-- The `Element` fields the verified operations read or write.
`origin` is an `Option` because the code guards it (`this.origin ||
[0, 0]` in `saveStateToNormal`); `position`, `scale` and `rotation`
are total, as initialized by `Transformable`.  `saveCount` and
`errorLog` are instrumentation with no counterpart in the source:
`saveCount` counts the calls to `saveStateToNormal` and `errorLog`
records the messages passed to `logError`; no modelled operation
reads either. -/
structure Element where
  position : Vec := (0, 0)
  rotation : Int := 0
  scale : Vec := (1, 1)
  origin : Option Vec := none
  ignore : Bool := false
  textConfig : Option TextConfig := none
  currentStates : List String := []
  states : List (String × ElementState) := []
  normalState : Option NormalState := none
  transform : Option Mat6 := none
  draggable : Draggable := Draggable.bool false
  dirty : Bool := true
  saveCount : Nat := 0
  errorLog : List String := []
deriving DecidableEq, Repr

/-- `hasState()`: whether any named state is currently active. -/
def hasStateFn (el : Element) : Bool := !el.currentStates.isEmpty

/-- The snapshot `saveStateToNormal` takes of the current primary
properties (`state.origin = this.origin || [0, 0]`). -/
def mkNormalSnapshot (el : Element) : NormalState where
  textConfig := el.textConfig
  position := el.position
  scale := el.scale
  rotation := el.rotation
  origin := el.origin.getD (0, 0)
  ignore := el.ignore

/-- `saveStateToNormal()`: capture the live primary properties into
`_normalState` (every field is overwritten, so re-creating the record
is equivalent to the source's field-wise assignment). -/
def saveStateToNormalFn (el : Element) : Element :=
  { el with
      normalState := some (mkNormalSnapshot el)
      saveCount := el.saveCount + 1 }

/-- Placeholder for dereferencing `_normalState` when it was never
captured.  `_applyStateObj` is only reached with the snapshot present
(it is called from `useState`, which saves first whenever no state is
active); the placeholder is inert in every theorem below. -/
def defaultNormalState : NormalState :=
  ⟨none, (0, 0), (1, 1), 0, (0, 0), false⟩

/-- `_applyStateObj(state, keepCurrentStates)`: merge the target
state (or restore the normal baseline) into the live properties.
`state = none` is the JS `undefined` passed when switching to the
reserved normal state. -/
def applyStateObjFn (el : Element) (state : Option ElementState) (keep : Bool) :
    Element :=
  let normalState := el.normalState.getD defaultNormalState
  let needsRestore := state.isNone || !keep
  let tc : Option TextConfig :=
    match state with
    | some s =>
      match s.textConfig with
      | some stc =>
        -- this.textConfig = extend({}, keep ? this.textConfig : normalState.textConfig);
        -- extend(this.textConfig, state.textConfig)
        some (extendTC ((if keep then el.textConfig else normalState.textConfig).getD emptyTC) stc)
      | none => if needsRestore then normalState.textConfig else el.textConfig
    | none => if needsRestore then normalState.textConfig else el.textConfig
  let pos :=
    match state.bind ElementState.position with
    | some v => v
    | none => if needsRestore then normalState.position else el.position
  let scl :=
    match state.bind ElementState.scale with
    | some v => v
    | none => if needsRestore then normalState.scale else el.scale
  let rot :=
    match state.bind ElementState.rotation with
    | some v => v
    | none => if needsRestore then normalState.rotation else el.rotation
  let org : Option Vec :=
    match state.bind ElementState.origin with
    | some v => some v
    | none => if needsRestore then some normalState.origin else el.origin
  let ign :=
    match state.bind ElementState.ignore with
    | some v => v
    | none => if needsRestore then normalState.ignore else el.ignore
  { el with
      textConfig := tc
      position := pos
      scale := scl
      rotation := rot
      origin := org
      ignore := ign }

/-- The body of `useState` after the initial has-state/save-to-normal
block: the `stateNoChange` short-circuit, the missing-state error,
the `_applyStateObj` call and the `currentStates` update. -/
def useStateAfterSave (el1 : Element) (stateName : String)
    (keepCurrentStates : Bool) : Element :=
  let toNormalState := stateName = PRESERVED_NORMAL_STATE
  let stateNoChange :=
    el1.currentStates.getLast? = some stateName ∧
      (keepCurrentStates ∨ el1.currentStates.length = 1)
  if stateNoChange then el1
  else
    let state := alookup el1.states stateName
    if state.isNone ∧ ¬ toNormalState then
      -- logError(`State ${stateName} not exists.`); return
      { el1 with errorLog := el1.errorLog ++ ["State " ++ stateName ++ " not exists."] }
    else
      let el2 := applyStateObjFn el1 state keepCurrentStates
      let el3 :=
        if toNormalState then { el2 with currentStates := [] }
        else if ¬ keepCurrentStates then { el2 with currentStates := [stateName] }
        else { el2 with currentStates := el2.currentStates ++ [stateName] }
      -- markRedraw()
      { el3 with dirty := true }

/-- `useState(stateName, keepCurrentStates)`.  The attached label's
own `useState` call (`this._textContent.useState(stateName)`) acts on
a different element and is outside this model. -/
def useStateFn (el : Element) (stateName : String) (keepCurrentStates : Bool) :
    Element :=
  if ¬ hasStateFn el ∧ stateName = PRESERVED_NORMAL_STATE then
    -- switched from normal to normal: return
    el
  else
    useStateAfterSave (if ¬ hasStateFn el then saveStateToNormalFn el else el)
      stateName keepCurrentStates

/-- `useStates(states)`: apply the first with `keepCurrentStates =
false` and every subsequent one with `true`. -/
def useStatesFn (el : Element) (names : List String) : Element :=
  match names with
  | [] => el
  | n :: rest => rest.foldl (fun e m => useStateFn e m true) (useStateFn el n false)

/-- `clearStates()`: switch to the reserved normal state. -/
def clearStatesFn (el : Element) : Element :=
  useStateFn el PRESERVED_NORMAL_STATE false

/-- One call of the public state-switching API, for quantifying over
call sequences. -/
inductive StateOp where
  | use (name : String) (keep : Bool)
  | uses (names : List String)
  | clear
deriving DecidableEq, Repr

/-- Run one state-switching call. -/
def runOp (el : Element) (op : StateOp) : Element :=
  match op with
  | StateOp.use n k => useStateFn el n k
  | StateOp.uses ns => useStatesFn el ns
  | StateOp.clear => clearStatesFn el

/-- Run a sequence of state-switching calls. -/
def runOps (el : Element) (ops : List StateOp) : Element :=
  ops.foldl runOp el

/-- `drift(dx, dy)`: apply a global-space translation delta with the
axis lock of the draggable mode, allocating an identity matrix when
none exists.  `decomposeTransform()` (core/Transformable, outside
src/) then recomputes position/rotation/scale from the matrix; it
does not modify the matrix itself and is not part of this model. -/
def driftFn (el : Element) (dx dy : Int) : Element :=
  let dy2 := if el.draggable = Draggable.mode "horizontal" then 0 else dy
  let dx2 := if el.draggable = Draggable.mode "vertical" then 0 else dx
  let m := el.transform.getD identityMat
  let m2 := { m with m4 := m.m4 + dx2, m5 := m.m5 + dy2 }
  -- markRedraw()
  { el with transform := some m2, dirty := true }

/-- A JavaScript value, as far as the animation-merge algorithm
inspects one.  A missing dictionary key is JS `undefined` (an absent
`Option`); `JVal.null` is the explicit `null` value, which like
`undefined` satisfies `x == null`. -/
inductive JVal where
  | null
  | num (n : Int)
  | str (s : String)
  | bool (b : Bool)
  | arr (elems : List JVal)
  | obj (fields : List (String × JVal))

/-- `x != null` for a property read result (`undefined` and `null`
both fail the test). -/
def nonNullV : Option JVal → Bool
  | some JVal.null => false
  | some _ => true
  | none => false

/-- `x == null` on a present value. -/
def isNullV : JVal → Bool
  | JVal.null => true
  | _ => false

/-- `isObject(v) && !isArrayLike(v)` from core/util: true exactly for
plain (non-array) objects; `null` is not an object. -/
def isObjectNotArray : JVal → Bool
  | JVal.obj _ => true
  | _ => false

/-- The message of the hard failure thrown on two-level nesting. -/
def nestErrorMsg : String := "Only support 1 depth nest object animation."

/-- One Animator created by the merge: the sub-object it targets
(`topKey`, empty for the element itself), the animatable keys batch,
and the end-keyframe values handed to `whenWithKeys`. -/
structure AnimRec where
  topKey : String
  keys : List String
  endVals : List (String × JVal)

/-- Accumulator of the per-key loop of `animateToShallow` at one
nesting level: the (mutated-in-place) source dictionary, the
`animatableKeys` batch, and the pending thrown error, if any. -/
structure ShallowAcc where
  src : List (String × JVal)
  animatableKeys : List String
  err : Option String

/-- One iteration of the `animateToShallow` key loop at a nonempty
`topKey` (i.e. inside a sub-object).  Here the recursive call of the
source is never taken: it would pass a nonempty `topKey`, and with a
nonempty `topKey` an object-valued target key throws at once, so the
recursion of the source is bounded at depth one and is unfolded into
this function plus `topStep` below. -/
def subStep (target : List (String × JVal)) (reverse : Bool)
    (acc : ShallowAcc) (innerKey : String) : ShallowAcc :=
  if acc.err.isSome then acc  -- a thrown error unwinds past the remaining keys
  else
    let tval := (alookup target innerKey).getD JVal.null
    if nonNullV (alookup acc.src innerKey) then
      if isObjectNotArray tval then
        { acc with err := some nestErrorMsg }
      else
        { acc with animatableKeys := acc.animatableKeys ++ [innerKey] }
    else if ¬ isNullV tval ∧ ¬ reverse then
      -- Assign directly.
      { acc with src := aset acc.src innerKey tval }
    else acc

/-- The reverse-swap loop run before creating an Animator when
`reverse` is set: per key, in order, `reversedTarget[k] = source[k]`
then `source[k] = target[k]`.  Returns `(reversedTarget, source)`. -/
def reverseSwap (target : List (String × JVal)) :
    List String → List (String × JVal) → List (String × JVal) × List (String × JVal)
  | [], src => ([], src)
  | k :: ks, src =>
    let entry := (k, (alookup src k).getD JVal.null)
    let src2 := aset src k ((alookup target k).getD JVal.null)
    let res := reverseSwap target ks src2
    (entry :: res.1, res.2)

/-- The tail of `animateToShallow` after the key loop: if any
animatable keys were collected, perform the reverse swap when
requested and create exactly one Animator carrying the batch. -/
def finishLevel (topKey : String) (reverse : Bool)
    (target : List (String × JVal)) (acc : ShallowAcc) :
    List (String × JVal) × Option AnimRec :=
  if acc.animatableKeys.length > 0 then
    if reverse then
      let rs := reverseSwap target acc.animatableKeys acc.src
      (rs.2, some { topKey := topKey, keys := acc.animatableKeys, endVals := rs.1 })
    else
      let ev := acc.animatableKeys.map (fun k => (k, (alookup target k).getD JVal.null))
      (acc.src, some { topKey := topKey, keys := acc.animatableKeys, endVals := ev })
  else (acc.src, none)

/-- Outcome of `animateToShallow` on a sub-object: the sub-object
after in-place mutation, the Animator created for it (if any), and
the error thrown (if any; mutations made before the throw persist). -/
structure SubOutcome where
  src : List (String × JVal)
  anim : Option AnimRec
  err : Option String

/-- `animateToShallow` called with a nonempty `topKey` on a top-level
sub-object (e.g. a style or shape bag). -/
def animateToShallowSub (topKey : String) (source target : List (String × JVal))
    (reverse : Bool) : SubOutcome :=
  let acc := (target.map Prod.fst).foldl (subStep target reverse)
    { src := source, animatableKeys := [], err := none }
  match acc.err with
  | some e => { src := acc.src, anim := none, err := some e }
  | none =>
    let fin := finishLevel topKey reverse target acc
    { src := fin.1, anim := fin.2, err := none }

/-- Accumulator of the top-level (`topKey = ''`) key loop: also
collects the Animators created by recursion into sub-objects. -/
structure TopAcc where
  src : List (String × JVal)
  animatableKeys : List String
  anims : List AnimRec
  err : Option String

/-- One iteration of the `animateToShallow` key loop at the top level
(`topKey = ''`): an object-valued target key recurses one level into
the matching live sub-object. -/
def topStep (target : List (String × JVal)) (reverse : Bool)
    (acc : TopAcc) (innerKey : String) : TopAcc :=
  if acc.err.isSome then acc
  else
    let tval := (alookup target innerKey).getD JVal.null
    if nonNullV (alookup acc.src innerKey) then
      if isObjectNotArray tval then
        match tval, (alookup acc.src innerKey).getD JVal.null with
        | JVal.obj tfields, JVal.obj sfields =>
          let sub := animateToShallowSub innerKey sfields tfields reverse
          -- the sub-object is mutated in place, so mutations made before
          -- a throw persist; an erroring level creates no Animator
          { acc with
              src := aset acc.src innerKey (JVal.obj sub.src),
              anims := acc.anims ++ sub.anim.toList,
              err := sub.err }
        | _, _ =>
          -- the live value is a primitive or an array: its property reads
          -- yield undefined and writes to it do not persist as dictionary
          -- entries, so the recursive call neither throws, creates an
          -- Animator, nor observably changes anything
          acc
      else
        { acc with animatableKeys := acc.animatableKeys ++ [innerKey] }
    else if ¬ isNullV tval ∧ ¬ reverse then
      -- Assign directly.
      { acc with src := aset acc.src innerKey tval }
    else acc

/-- Outcome of the whole merge: the element's property dictionary
after the call, every Animator created (sub-object Animators in
creation order, then the element-level one), and the thrown error,
if any. -/
structure TopOutcome where
  src : List (String × JVal)
  anims : List AnimRec
  err : Option String

/-- `animateToShallow(animatable, '', animatable, target, ...)`: the
top-level merge run by `animateTo` / `animateFrom` (`reverse` set for
`animateFrom`). -/
def animateToShallowTop (source target : List (String × JVal)) (reverse : Bool) :
    TopOutcome :=
  let acc := (target.map Prod.fst).foldl (topStep target reverse)
    { src := source, animatableKeys := [], anims := [], err := none }
  match acc.err with
  | some e => { src := acc.src, anims := acc.anims, err := some e }
  | none =>
    let fin := finishLevel "" reverse target
      { src := acc.src, animatableKeys := acc.animatableKeys, err := none }
    { src := fin.1, anims := acc.anims ++ fin.2.toList, err := none }

/-- The completion countdown of `animateTo`: the pair
`(count, fires)` where `count` is the shared counter and `fires` the
number of times the completion callback has been invoked. -/
def doneStep (s : Int × Nat) : Int × Nat :=
  let c := s.1 - 1
  (c, if c = 0 then s.2 + 1 else s.2)

/-- The countdown state right after `animateTo` sets it up:
`count = animators.length; if (!count) callback();`. -/
def animateDoneInit (n : Nat) : Int × Nat :=
  ((n : Int), if n = 0 then 1 else 0)

/-- The countdown state after `k` of the `n` created Animators have
invoked their `done` handler. -/
def runCompletions (n k : Nat) : Int × Nat :=
  doneStep^[k] (animateDoneInit n)

/-- The per-element fields of the attachment model: host-context
reference (`__zr`), clip relation (`_clipPath` and the back-reference
`__clipTarget`), attached label (`_textContent`), animator list and
dirty flag.  Elements are identified by numeric ids; animators and
host contexts by numbers as well. -/
structure ENode where
  zr : Option Nat := none
  clipPath : Option Nat := none
  clipTarget : Option Nat := none
  textContent : Option Nat := none
  animators : List Nat := []
  dirty : Bool := true
deriving DecidableEq, Repr

/-- The default (absent) element: reading an id that is not in the
world yields an element with no attachments. -/
def defaultENode : ENode := {}

/-- A world of elements plus the host schedulers' animator
registries: `(z, a) ∈ sched` means animator `a` is registered with
host `z`'s tick scheduler (`zr.animation`). -/
structure World where
  elems : List (Nat × ENode) := []
  sched : List (Nat × Nat) := []
deriving DecidableEq, Repr

/-- Read an element of the world. -/
def getE (w : World) (i : Nat) : ENode :=
  (alookup w.elems i).getD defaultENode

/-- Write an element of the world. -/
def setE (w : World) (i : Nat) (e : ENode) : World :=
  { w with elems := aset w.elems i e }

/-- Update an element of the world in place. -/
def updE (w : World) (i : Nat) (f : ENode → ENode) : World :=
  setE w i (f (getE w i))

/-- `zr.animation.addAnimator` for each animator, in order.  Modelled
from the spec: the host animation scheduler registers the animator
for per-frame ticking (the scheduler itself is outside src/). -/
def addAnimatorsToSched (w : World) (zr : Nat) (animators : List Nat) : World :=
  { w with sched := w.sched ++ animators.map (fun a => (zr, a)) }

/-- `zr.animation.removeAnimator` for each animator, in order.
Modelled from the spec: the host scheduler deregisters the animator
(one registration per call). -/
def removeAnimatorsFromSched (w : World) (zr : Nat) (animators : List Nat) : World :=
  { w with sched := animators.foldl (fun s a => s.erase (zr, a)) w.sched }

/-- `addSelfToZr(zr)`: set the host-context reference, register every
animator with the host scheduler, and propagate to the clip-path and
label sub-objects.  The recursion is on the clip/label chains, which
the class cannot bound, so it takes explicit fuel; every theorem
below supplies more fuel than the chains it involves are long, where
the model agrees with the source. -/
def addSelfToZrFn : Nat → World → Nat → Nat → World
  | 0, w, _, _ => w
  | fuel + 1, w, i, zr =>
    let w1 := updE w i (fun e => { e with zr := some zr })
    let w2 := addAnimatorsToSched w1 zr (getE w1 i).animators
    let w3 :=
      match (getE w2 i).clipPath with
      | some c => addSelfToZrFn fuel w2 c zr
      | none => w2
    match (getE w3 i).textContent with
    | some t => addSelfToZrFn fuel w3 t zr
    | none => w3

/-- `removeSelfFromZr(zr)`: clear the host-context reference,
deregister every animator from the passed host's scheduler, and
propagate to the clip-path and label sub-objects. -/
def removeSelfFromZrFn : Nat → World → Nat → Nat → World
  | 0, w, _, _ => w
  | fuel + 1, w, i, zr =>
    let w1 := updE w i (fun e => { e with zr := none })
    let w2 := removeAnimatorsFromSched w1 zr (getE w1 i).animators
    let w3 :=
      match (getE w2 i).clipPath with
      | some c => removeSelfFromZrFn fuel w2 c zr
      | none => w2
    match (getE w3 i).textContent with
    | some t => removeSelfFromZrFn fuel w3 t zr
    | none => w3

/-- `removeClipPath()`: detach this element's clip path, deregister
it from its host, and clear its back-reference. -/
def removeClipPathFn (fuel : Nat) (w : World) (i : Nat) : World :=
  match (getE w i).clipPath with
  | none => w
  | some p =>
    let w1 :=
      match (getE w p).zr with
      | some z => removeSelfFromZrFn fuel w p z
      | none => w
    let w2 := updE w1 p (fun e => { e with zr := none })
    let w3 := updE w2 p (fun e => { e with clipTarget := none })
    let w4 := updE w3 i (fun e => { e with clipPath := none })
    -- markRedraw()
    updE w4 i (fun e => { e with dirty := true })

/-- `setClipPath(clipPath)`: register the clip path with this
element's host (if live), detach this element's previous clip path if
different, then record the claim in both directions. -/
def setClipPathFn (fuel : Nat) (w : World) (i c : Nat) : World :=
  let zr := (getE w i).zr
  let w1 :=
    match zr with
    | some z => addSelfToZrFn fuel w c z
    | none => w
  let w2 :=
    match (getE w1 i).clipPath with
    | some p => if p ≠ c then removeClipPathFn fuel w1 i else w1
    | none => w1
  let w3 := updE w2 i (fun e => { e with clipPath := some c })
  let w4 := updE w3 c (fun e => { e with zr := zr })
  let w5 := updE w4 c (fun e => { e with clipTarget := some i })
  -- markRedraw()
  updE w5 i (fun e => { e with dirty := true })

/-- Overlay of one key: the value of the topmost state defining it,
else the next state's, else the base value.  Used to state the
layered-override claim. -/
def overlayField {α : Type} (top mid base : Option α) : Option α :=
  firstSome top (firstSome mid base)

/-- The shape `_applyStateObj` gives the label configuration when the
chosen base is `base` and the target state's config is `st`:
`extend(extend({}, base), st)` when the state defines one, the base
otherwise. -/
def stateTextConfigMerge (base st : Option TextConfig) : Option TextConfig :=
  match st with
  | some stc => some (extendTC (base.getD emptyTC) stc)
  | none => base

/-- Invariant relating a node to its pre-first-switch self `el0`
across arbitrary state-switching call sequences: the states map never
changes; the normal snapshot is either still the original field value
or the snapshot of `el0`; with no active state the primary properties
equal `el0`'s (origin possibly defaulted to the captured `[0, 0]`);
and with an active state the snapshot of `el0` is in place. -/
def StateJ (el0 el : Element) : Prop :=
  el.states = el0.states ∧
  (el.normalState = el0.normalState ∨
    el.normalState = some (mkNormalSnapshot el0)) ∧
  (el.currentStates = [] →
    el.position = el0.position ∧ el.scale = el0.scale ∧
    el.rotation = el0.rotation ∧ el.ignore = el0.ignore ∧
    el.textConfig = el0.textConfig ∧
    (el.origin = el0.origin ∨ el.origin = some (el0.origin.getD (0, 0)))) ∧
  (el.currentStates ≠ [] → el.normalState = some (mkNormalSnapshot el0))

/-! ## Theorems -/

theorem hasStateFn_false_iff (el : Element) :
    (¬ hasStateFn el) ↔ el.currentStates = [] := by
  simp [hasStateFn]

theorem saveStateToNormalFn_normalState (el : Element) :
    (saveStateToNormalFn el).normalState = some (mkNormalSnapshot el) := rfl

theorem applyStateObjFn_none_restore (el : Element) (ns : NormalState)
    (h : el.normalState = some ns) (keep : Bool) :
    applyStateObjFn el none keep =
      { el with
          textConfig := ns.textConfig
          position := ns.position
          scale := ns.scale
          rotation := ns.rotation
          origin := some ns.origin
          ignore := ns.ignore } := by
  simp [applyStateObjFn, h]

theorem applyStateObjFn_some_restore (el : Element) (s : ElementState)
    (ns : NormalState) (h : el.normalState = some ns) :
    applyStateObjFn el (some s) false =
      { el with
          textConfig :=
            (match s.textConfig with
             | some stc => some (extendTC (ns.textConfig.getD emptyTC) stc)
             | none => ns.textConfig)
          position := s.position.getD ns.position
          scale := s.scale.getD ns.scale
          rotation := s.rotation.getD ns.rotation
          origin := some (s.origin.getD ns.origin)
          ignore := s.ignore.getD ns.ignore } := by
  simp only [applyStateObjFn, h, Option.getD_some, Option.isNone_some, Bool.not_false,
    Bool.or_true, Option.some_bind]
  cases hs : s.position <;> cases ht : s.textConfig <;> cases ho : s.origin <;>
    cases hsc : s.scale <;> cases hr : s.rotation <;> cases hi : s.ignore <;>
    simp [hs, ht, ho, hsc, hr, hi]

theorem applyStateObjFn_some_keep (el : Element) (s : ElementState) :
    applyStateObjFn el (some s) true =
      { el with
          textConfig :=
            (match s.textConfig with
             | some stc => some (extendTC (el.textConfig.getD emptyTC) stc)
             | none => el.textConfig)
          position := s.position.getD el.position
          scale := s.scale.getD el.scale
          rotation := s.rotation.getD el.rotation
          origin :=
            (match s.origin with
             | some v => some v
             | none => el.origin)
          ignore := s.ignore.getD el.ignore } := by
  simp only [applyStateObjFn, Option.isNone_some, Bool.not_true, Bool.or_false,
    Option.some_bind]
  cases hs : s.position <;> cases ht : s.textConfig <;> cases ho : s.origin <;>
    cases hsc : s.scale <;> cases hr : s.rotation <;> cases hi : s.ignore <;>
    simp [hs, ht, ho, hsc, hr, hi]

theorem useStateFn_normal_on_normal (el : Element) (keep : Bool)
    (h : el.currentStates = []) :
    useStateFn el PRESERVED_NORMAL_STATE keep = el := by
  simp [useStateFn, hasStateFn, h]

theorem useStateFn_hasState (el : Element) (name : String) (keep : Bool)
    (h : el.currentStates ≠ []) :
    useStateFn el name keep = useStateAfterSave el name keep := by
  have hh : hasStateFn el = true := by simp [hasStateFn, h]
  simp [useStateFn, hh]

theorem useStateFn_empty (el : Element) (name : String) (keep : Bool)
    (h : el.currentStates = []) (hname : name ≠ PRESERVED_NORMAL_STATE) :
    useStateFn el name keep = useStateAfterSave (saveStateToNormalFn el) name keep := by
  have hh : ¬ hasStateFn el := by simp [hasStateFn, h]
  simp [useStateFn, hh, hname]

theorem afterSave_noChange (el1 : Element) (name : String) (keep : Bool)
    (h : el1.currentStates.getLast? = some name)
    (h2 : keep ∨ el1.currentStates.length = 1) :
    useStateAfterSave el1 name keep = el1 := by
  simp [useStateAfterSave, h, h2]

theorem afterSave_error (el1 : Element) (name : String) (keep : Bool)
    (hname : name ≠ PRESERVED_NORMAL_STATE)
    (hmiss : alookup el1.states name = none)
    (hnc : ¬ (el1.currentStates.getLast? = some name ∧
      (keep ∨ el1.currentStates.length = 1))) :
    useStateAfterSave el1 name keep =
      { el1 with errorLog := el1.errorLog ++ ["State " ++ name ++ " not exists."] } := by
  simp [useStateAfterSave, hname, hmiss, hnc]

theorem afterSave_apply (el1 : Element) (name : String) (keep : Bool)
    (s : ElementState)
    (hname : name ≠ PRESERVED_NORMAL_STATE)
    (hs : alookup el1.states name = some s)
    (hnc : ¬ (el1.currentStates.getLast? = some name ∧
      (keep ∨ el1.currentStates.length = 1))) :
    useStateAfterSave el1 name keep =
      (if keep then
        { applyStateObjFn el1 (some s) keep with
            currentStates := el1.currentStates ++ [name], dirty := true }
      else
        { applyStateObjFn el1 (some s) keep with
            currentStates := [name], dirty := true }) := by
  by_cases hk : keep = true
  · have hl : el1.currentStates.getLast? ≠ some name := fun h => hnc ⟨h, Or.inl hk⟩
    have hcs : (applyStateObjFn el1 (some s) true).currentStates = el1.currentStates := rfl
    simp [useStateAfterSave, hname, hs, hk, hl, hcs]
  · have hb : keep = false := by simpa using hk
    have hl2 : ¬ (el1.currentStates.getLast? = some name ∧
        el1.currentStates.length = 1) :=
      fun h => hnc ⟨h.1, Or.inr h.2⟩
    have hcs : (applyStateObjFn el1 (some s) false).currentStates = el1.currentStates := rfl
    simp [useStateAfterSave, hname, hs, hb, hl2, hcs]

theorem afterSave_toNormal (el1 : Element) (keep : Bool) (ns : NormalState)
    (hnc : ¬ (el1.currentStates.getLast? = some PRESERVED_NORMAL_STATE ∧
      (keep ∨ el1.currentStates.length = 1)))
    (hmiss : alookup el1.states PRESERVED_NORMAL_STATE = none)
    (hns : el1.normalState = some ns) :
    useStateAfterSave el1 PRESERVED_NORMAL_STATE keep =
      { el1 with
          textConfig := ns.textConfig
          position := ns.position
          scale := ns.scale
          rotation := ns.rotation
          origin := some ns.origin
          ignore := ns.ignore
          currentStates := []
          dirty := true } := by
  simp [useStateAfterSave, hnc, hmiss, applyStateObjFn_none_restore el1 ns hns keep]

/-- C10: for a node with `draggable = "horizontal"`, `drift(dx, dy)`
adds `dx` to the matrix's horizontal translation component `m[4]` and
leaves the vertical component `m[5]` (and every other entry)
unchanged; symmetrically `"vertical"` zeroes `dx`; an identity matrix
is allocated when none exists before translating. -/
theorem drift_axis_lock (el : Element) (dx dy : Int) :
    (el.draggable = Draggable.mode "horizontal" →
      (driftFn el dx dy).transform =
        some { el.transform.getD identityMat with
                 m4 := (el.transform.getD identityMat).m4 + dx }) ∧
    (el.draggable = Draggable.mode "vertical" →
      (driftFn el dx dy).transform =
        some { el.transform.getD identityMat with
                 m5 := (el.transform.getD identityMat).m5 + dy }) := by
  constructor
  · intro h
    simp [driftFn, h]
  · intro h
    simp [driftFn, h]

/-- Witness for `drift_axis_lock`: a node locked horizontally with
matrix `[1,0,0,1,10,20]` drifts by `(5,7)` to `[1,0,0,1,15,20]`. -/
theorem drift_axis_lock_witness :
    (driftFn { draggable := Draggable.mode "horizontal",
               transform := some ⟨1, 0, 0, 1, 10, 20⟩ } 5 7).transform =
      some ⟨1, 0, 0, 1, 15, 20⟩ := by
  have h := (drift_axis_lock
    { draggable := Draggable.mode "horizontal",
      transform := some ⟨1, 0, 0, 1, 10, 20⟩ } 5 7).1 rfl
  simpa using h

/-- C6 counterexample: `useState` of an undefined state name on a
node with no active state does mutate node state: `saveStateToNormal`
runs before the existence check, so the normal snapshot goes from
absent to captured even though the call fails.  This refutes the
claim that a failed `useState` leaves all node state unchanged. -/
theorem useState_missing_state_mutates_snapshot :
    (useStateFn ({ } : Element) "emphasis" false).normalState =
        some (mkNormalSnapshot ({ } : Element)) ∧
      ({ } : Element).normalState = none := by
  constructor
  · rfl
  · rfl

/-- C6 as amended: `useState` of a name that is neither a defined
state nor the reserved normal tag reports the error and leaves
`currentStates`, every primary property, the label configuration, the
states map and the dirty flag unchanged — but it does capture the
normal snapshot first when no state was active.  The well-formedness
hypothesis (every active state name is a defined state) rules out the
unreachable corner in which a stale `currentStates` entry would make
the call no-op before the lookup. -/
theorem useState_missing_state_no_property_mutation
    (el : Element) (name : String) (keep : Bool)
    (hname : name ≠ PRESERVED_NORMAL_STATE)
    (hmiss : alookup el.states name = none)
    (hwf : ∀ n ∈ el.currentStates, (alookup el.states n).isSome) :
    (useStateFn el name keep).currentStates = el.currentStates ∧
    (useStateFn el name keep).position = el.position ∧
    (useStateFn el name keep).scale = el.scale ∧
    (useStateFn el name keep).rotation = el.rotation ∧
    (useStateFn el name keep).origin = el.origin ∧
    (useStateFn el name keep).ignore = el.ignore ∧
    (useStateFn el name keep).textConfig = el.textConfig ∧
    (useStateFn el name keep).states = el.states ∧
    (useStateFn el name keep).dirty = el.dirty ∧
    (useStateFn el name keep).errorLog =
      el.errorLog ++ ["State " ++ name ++ " not exists."] ∧
    (useStateFn el name keep).normalState =
      (if el.currentStates = [] then some (mkNormalSnapshot el)
       else el.normalState) := by
  have hnc : ¬ (el.currentStates.getLast? = some name ∧
      (keep ∨ el.currentStates.length = 1)) := by
    intro h
    have hmem0 : name ∈ el.currentStates.getLast? := Option.mem_def.mpr h.1
    obtain ⟨hne, heq⟩ := List.mem_getLast?_eq_getLast hmem0
    have hmem : name ∈ el.currentStates := heq ▸ List.getLast_mem hne
    have := hwf name hmem
    rw [hmiss] at this
    simp at this
  by_cases he : el.currentStates = []
  · have h1 := useStateFn_empty el name keep he hname
    have hnc2 : ¬ ((saveStateToNormalFn el).currentStates.getLast? = some name ∧
        (keep ∨ (saveStateToNormalFn el).currentStates.length = 1)) := hnc
    have hm2 : alookup (saveStateToNormalFn el).states name = none := hmiss
    rw [h1, afterSave_error _ name keep hname hm2 hnc2]
    simp [saveStateToNormalFn, he]
  · rw [useStateFn_hasState el name keep he, afterSave_error el name keep hname hmiss hnc]
    simp [he]

/-- Witness for `useState_missing_state_no_property_mutation`: a node
with one active defined state, asked for the undefined "hover". -/
theorem useState_missing_state_no_property_mutation_witness :
    (useStateFn { currentStates := ["a"],
                  states := [("a", { position := some (1, 1) })] }
        "hover" false).currentStates = ["a"] := by
  have h := useState_missing_state_no_property_mutation
    { currentStates := ["a"], states := [("a", { position := some (1, 1) })] }
    "hover" false (by decide) (by decide) (by decide)
  exact h.1

theorem afterSave_preserves_core (el1 : Element) (n : String) (k : Bool) :
    (useStateAfterSave el1 n k).saveCount = el1.saveCount ∧
    (useStateAfterSave el1 n k).normalState = el1.normalState ∧
    (useStateAfterSave el1 n k).states = el1.states := by
  simp only [useStateAfterSave]
  split_ifs <;> exact ⟨rfl, rfl, rfl⟩

theorem stateJ_snapshot (el0 el : Element)
    (hpos : el.position = el0.position) (hsc : el.scale = el0.scale)
    (hrot : el.rotation = el0.rotation) (hig : el.ignore = el0.ignore)
    (htc : el.textConfig = el0.textConfig)
    (hor : el.origin = el0.origin ∨ el.origin = some (el0.origin.getD (0, 0))) :
    mkNormalSnapshot el = mkNormalSnapshot el0 := by
  cases hor with
  | inl h => simp [mkNormalSnapshot, hpos, hsc, hrot, hig, htc, h]
  | inr h => simp [mkNormalSnapshot, hpos, hsc, hrot, hig, htc, h]

theorem stateJ_step (el0 : Element)
    (hnorm : alookup el0.states PRESERVED_NORMAL_STATE = none)
    (el : Element) (hJ : StateJ el0 el) (name : String) (keep : Bool) :
    StateJ el0 (useStateFn el name keep) := by
  obtain ⟨hst, hns, hprops, hact⟩ := hJ
  by_cases he : el.currentStates = []
  · by_cases hn : name = PRESERVED_NORMAL_STATE
    · rw [hn, useStateFn_normal_on_normal el keep he]
      exact ⟨hst, hns, hprops, hact⟩
    · rw [useStateFn_empty el name keep he hn]
      obtain ⟨hpos, hsc, hrot, hig, htc, hor⟩ := hprops he
      have hsnap : mkNormalSnapshot el = mkNormalSnapshot el0 :=
        stateJ_snapshot el0 el hpos hsc hrot hig htc hor
      have h1ns : (saveStateToNormalFn el).normalState =
          some (mkNormalSnapshot el0) := by
        rw [saveStateToNormalFn_normalState, hsnap]
      have h1st : (saveStateToNormalFn el).states = el0.states := hst
      have h1cs : (saveStateToNormalFn el).currentStates = [] := he
      cases hlk : alookup (saveStateToNormalFn el).states name with
      | none =>
        have hnc : ¬ ((saveStateToNormalFn el).currentStates.getLast? = some name ∧
            (keep ∨ (saveStateToNormalFn el).currentStates.length = 1)) := by
          rw [h1cs]
          simp
        rw [afterSave_error _ name keep hn hlk hnc]
        refine ⟨h1st, Or.inr h1ns, ?_, fun _ => h1ns⟩
        intro _
        exact ⟨hpos, hsc, hrot, hig, htc, hor⟩
      | some s =>
        have hnc : ¬ ((saveStateToNormalFn el).currentStates.getLast? = some name ∧
            (keep ∨ (saveStateToNormalFn el).currentStates.length = 1)) := by
          rw [h1cs]
          simp
        rw [afterSave_apply _ name keep s hn hlk hnc]
        by_cases hk : keep = true
        · rw [if_pos hk]
          refine ⟨h1st, Or.inr h1ns, ?_, fun _ => h1ns⟩
          intro hcon
          exact absurd hcon (by simp [h1cs])
        · rw [if_neg hk]
          refine ⟨h1st, Or.inr h1ns, ?_, fun _ => h1ns⟩
          intro hcon
          exact absurd hcon (by simp)
  · rw [useStateFn_hasState el name keep he]
    have hsnap0 : el.normalState = some (mkNormalSnapshot el0) := hact he
    by_cases hnc : el.currentStates.getLast? = some name ∧
        (keep ∨ el.currentStates.length = 1)
    · rw [afterSave_noChange el name keep hnc.1 hnc.2]
      exact ⟨hst, hns, hprops, hact⟩
    · by_cases hn : name = PRESERVED_NORMAL_STATE
      · have hmiss : alookup el.states PRESERVED_NORMAL_STATE = none := by
          rw [hst]
          exact hnorm
        rw [hn] at hnc
        rw [hn, afterSave_toNormal el keep (mkNormalSnapshot el0) hnc hmiss hsnap0]
        refine ⟨hst, Or.inr hsnap0, ?_, ?_⟩
        · intro _
          exact ⟨rfl, rfl, rfl, rfl, rfl, Or.inr rfl⟩
        · intro hcon
          exact absurd rfl hcon
      · cases hlk : alookup el.states name with
        | none =>
          rw [afterSave_error el name keep hn hlk hnc]
          refine ⟨hst, hns, ?_, fun _ => hsnap0⟩
          intro hcon
          exact absurd hcon he
        | some s =>
          rw [afterSave_apply el name keep s hn hlk hnc]
          by_cases hk : keep = true
          · rw [if_pos hk]
            refine ⟨hst, Or.inr hsnap0, ?_, fun _ => hsnap0⟩
            intro hcon
            exact absurd hcon (by simp)
          · rw [if_neg hk]
            refine ⟨hst, Or.inr hsnap0, ?_, fun _ => hsnap0⟩
            intro hcon
            exact absurd hcon (by simp)

theorem stateJ_foldl_keep (el0 : Element)
    (hnorm : alookup el0.states PRESERVED_NORMAL_STATE = none)
    (names : List String) :
    ∀ el : Element, StateJ el0 el →
      StateJ el0 (names.foldl (fun e m => useStateFn e m true) el) := by
  induction names with
  | nil => exact fun el hJ => hJ
  | cons n rest ih =>
    intro el hJ
    exact ih (useStateFn el n true) (stateJ_step el0 hnorm el hJ n true)

theorem stateJ_runOp (el0 : Element)
    (hnorm : alookup el0.states PRESERVED_NORMAL_STATE = none)
    (el : Element) (hJ : StateJ el0 el) (op : StateOp) :
    StateJ el0 (runOp el op) := by
  cases op with
  | use n k => exact stateJ_step el0 hnorm el hJ n k
  | uses ns =>
    cases ns with
    | nil => exact hJ
    | cons n rest =>
      exact stateJ_foldl_keep el0 hnorm rest (useStateFn el n false)
        (stateJ_step el0 hnorm el hJ n false)
  | clear => exact stateJ_step el0 hnorm el hJ PRESERVED_NORMAL_STATE false

theorem stateJ_runOps (el0 : Element)
    (hnorm : alookup el0.states PRESERVED_NORMAL_STATE = none)
    (ops : List StateOp) :
    ∀ el : Element, StateJ el0 el → StateJ el0 (runOps el ops) := by
  induction ops with
  | nil => exact fun el hJ => hJ
  | cons op rest ih =>
    intro el hJ
    exact ih (runOp el op) (stateJ_runOp el0 hnorm el hJ op)

/-- C7 counterexample: over the sequence `useState("a")`,
`clearStates()`, `useState("a")` on a fresh node, `saveStateToNormal`
runs twice (`saveCount` is incremented once per call), refuting that
the normal snapshot is captured exactly once over any
`useState`/`useStates`/`clearStates` sequence: after a return to
normal, the next non-normal switch recaptures it. -/
theorem normal_snapshot_recaptured :
    (runOps { states := [("a", { position := some (1, 1) })] }
        [StateOp.use "a" false, StateOp.clear, StateOp.use "a" false]).saveCount = 2 ∧
      ({ states := [("a", { position := some (1, 1) })] } : Element).saveCount = 0 := by
  constructor
  · rfl
  · rfl

/-- C7 as amended: starting from a node with no active state (and no
user state shadowing the reserved normal name), every capture of the
normal snapshot happens while no state is active — so over any
sequence of `useState`/`useStates`/`clearStates` calls the snapshot
is either untouched or (re)captured with exactly the values the node
had before the first non-normal switch — and a call on a node with an
active state never recaptures the snapshot. -/
theorem normal_snapshot_stability :
    (∀ (el : Element) (ops : List StateOp),
        el.currentStates = [] →
        alookup el.states PRESERVED_NORMAL_STATE = none →
        (runOps el ops).normalState = el.normalState ∨
          (runOps el ops).normalState = some (mkNormalSnapshot el)) ∧
    (∀ (el : Element) (name : String) (keep : Bool),
        hasStateFn el = true →
        (useStateFn el name keep).saveCount = el.saveCount ∧
          (useStateFn el name keep).normalState = el.normalState) := by
  constructor
  · intro el ops hempty hnorm
    have hbase : StateJ el el := by
      refine ⟨rfl, Or.inl rfl, ?_, ?_⟩
      · exact fun _ => ⟨rfl, rfl, rfl, rfl, rfl, Or.inl rfl⟩
      · intro hcon
        exact absurd hempty hcon
    exact (stateJ_runOps el hnorm ops el hbase).2.1
  · intro el name keep hh
    have he : el.currentStates ≠ [] := by
      intro hcon
      rw [hasStateFn, hcon] at hh
      simp at hh
    rw [useStateFn_hasState el name keep he]
    obtain ⟨h1, h2, _⟩ := afterSave_preserves_core el name keep
    exact ⟨h1, h2⟩

/-- Witness for `normal_snapshot_stability`: a fresh node with state
"a", run through `useStates(["a"])` then `clearStates`; the snapshot
ends up captured with the pre-switch values, and a `useState` call on
a node with an active state keeps `saveCount` and the snapshot. -/
theorem normal_snapshot_stability_witness :
    ((runOps { states := [("a", { position := some (3, 4) })] }
        [StateOp.uses ["a"], StateOp.clear]).normalState =
      ({ states := [("a", { position := some (3, 4) })] } : Element).normalState ∨
    (runOps { states := [("a", { position := some (3, 4) })] }
        [StateOp.uses ["a"], StateOp.clear]).normalState =
      some (mkNormalSnapshot { states := [("a", { position := some (3, 4) })] })) ∧
    ((useStateFn { currentStates := ["b"] } "b" true).saveCount =
        ({ currentStates := ["b"] } : Element).saveCount ∧
      (useStateFn { currentStates := ["b"] } "b" true).normalState =
        ({ currentStates := ["b"] } : Element).normalState) := by
  constructor
  · exact normal_snapshot_stability.1
      { states := [("a", { position := some (3, 4) })] }
      [StateOp.uses ["a"], StateOp.clear] rfl (by decide)
  · exact normal_snapshot_stability.2 { currentStates := ["b"] } "b" true rfl

theorem afterSave_currentStates_cases (el1 : Element) (name : String) (keep : Bool) :
    (useStateAfterSave el1 name keep).currentStates = el1.currentStates ∨
    (useStateAfterSave el1 name keep).currentStates = [] ∨
    (useStateAfterSave el1 name keep).currentStates = [name] ∨
    (useStateAfterSave el1 name keep).currentStates = el1.currentStates ++ [name] := by
  simp only [useStateAfterSave]
  split_ifs <;>
    first
      | exact Or.inl rfl
      | exact Or.inr (Or.inl rfl)
      | exact Or.inr (Or.inr (Or.inl rfl))
      | exact Or.inr (Or.inr (Or.inr rfl))

theorem useStateFn_currentStates_cases (el : Element) (name : String) (keep : Bool) :
    (useStateFn el name keep).currentStates = el.currentStates ∨
    (useStateFn el name keep).currentStates = [] ∨
    (useStateFn el name keep).currentStates = [name] ∨
    (useStateFn el name keep).currentStates = el.currentStates ++ [name] := by
  by_cases hbr : ¬ hasStateFn el ∧ name = PRESERVED_NORMAL_STATE
  · rw [useStateFn, if_pos hbr]
    exact Or.inl rfl
  · rw [useStateFn, if_neg hbr]
    have hcs : (if ¬ hasStateFn el then saveStateToNormalFn el else el).currentStates
        = el.currentStates := by
      split_ifs <;> rfl
    rcases afterSave_currentStates_cases
        (if ¬ hasStateFn el then saveStateToNormalFn el else el) name keep with
      h | h | h | h
    · exact Or.inl (h.trans hcs)
    · exact Or.inr (Or.inl h)
    · exact Or.inr (Or.inr (Or.inl h))
    · refine Or.inr (Or.inr (Or.inr ?_))
      rw [h, hcs]

theorem roundtrip_fold (el0 : Element)
    (hnorm : alookup el0.states PRESERVED_NORMAL_STATE = none)
    (calls : List (String × Bool))
    (hcalls : ∀ p ∈ calls, p.1 ≠ PRESERVED_NORMAL_STATE) :
    ∀ el : Element, StateJ el0 el →
      (∀ n ∈ el.currentStates, n ≠ PRESERVED_NORMAL_STATE) →
      StateJ el0 (calls.foldl (fun e p => useStateFn e p.1 p.2) el) ∧
        (∀ n ∈ (calls.foldl (fun e p => useStateFn e p.1 p.2) el).currentStates,
          n ≠ PRESERVED_NORMAL_STATE) := by
  induction calls with
  | nil => exact fun el hJ hA => ⟨hJ, hA⟩
  | cons p rest ih =>
    intro el hJ hA
    have hp := hcalls p (List.mem_cons_self p rest)
    have hrest : ∀ q ∈ rest, q.1 ≠ PRESERVED_NORMAL_STATE :=
      fun q hq => hcalls q (List.mem_cons_of_mem p hq)
    have hJ2 := stateJ_step el0 hnorm el hJ p.1 p.2
    have hA2 : ∀ n ∈ (useStateFn el p.1 p.2).currentStates,
        n ≠ PRESERVED_NORMAL_STATE := by
      rcases useStateFn_currentStates_cases el p.1 p.2 with h | h | h | h
      · rw [h]
        exact hA
      · rw [h]
        intro n hn
        simp at hn
      · rw [h]
        intro n hn
        rw [List.mem_singleton] at hn
        rw [hn]
        exact hp
      · rw [h]
        intro n hn
        rcases List.mem_append.mp hn with h2 | h2
        · exact hA n h2
        · rw [List.mem_singleton] at h2
          rw [h2]
          exact hp
    have := ih hrest (useStateFn el p.1 p.2) hJ2 hA2
    simpa using this

/-- C1: on a node with no active state, any sequence of `useState`
calls naming existing non-normal states (layered or not), followed by
`useState("normal")`, restores every primary property — position,
scale, rotation, origin, ignore — and the label configuration to the
value held immediately before the first non-normal switch.  The
hypotheses record the claim's assumptions: the node starts in normal
mode with an origin set (as `Transformable` initializes it per the
spec), the reserved normal name is not a user state, and every name
in the sequence is a defined non-normal state. -/
theorem state_round_trip (el : Element) (calls : List (String × Bool))
    (hempty : el.currentStates = [])
    (horigin : el.origin.isSome)
    (hnormal : alookup el.states PRESERVED_NORMAL_STATE = none)
    (hcalls : ∀ p ∈ calls, p.1 ≠ PRESERVED_NORMAL_STATE ∧
      (alookup el.states p.1).isSome) :
    (useStateFn (calls.foldl (fun e p => useStateFn e p.1 p.2) el)
        PRESERVED_NORMAL_STATE false).position = el.position ∧
    (useStateFn (calls.foldl (fun e p => useStateFn e p.1 p.2) el)
        PRESERVED_NORMAL_STATE false).scale = el.scale ∧
    (useStateFn (calls.foldl (fun e p => useStateFn e p.1 p.2) el)
        PRESERVED_NORMAL_STATE false).rotation = el.rotation ∧
    (useStateFn (calls.foldl (fun e p => useStateFn e p.1 p.2) el)
        PRESERVED_NORMAL_STATE false).origin = el.origin ∧
    (useStateFn (calls.foldl (fun e p => useStateFn e p.1 p.2) el)
        PRESERVED_NORMAL_STATE false).ignore = el.ignore ∧
    (useStateFn (calls.foldl (fun e p => useStateFn e p.1 p.2) el)
        PRESERVED_NORMAL_STATE false).textConfig = el.textConfig := by
  obtain ⟨ov, hov⟩ := Option.isSome_iff_exists.mp horigin
  have hbase : StateJ el el := by
    refine ⟨rfl, Or.inl rfl, ?_, ?_⟩
    · exact fun _ => ⟨rfl, rfl, rfl, rfl, rfl, Or.inl rfl⟩
    · intro hcon
      exact absurd hempty hcon
  have hA0 : ∀ n ∈ el.currentStates, n ≠ PRESERVED_NORMAL_STATE := by
    rw [hempty]
    intro n hn
    simp at hn
  obtain ⟨hJ, hA⟩ := roundtrip_fold el hnormal calls
    (fun p hp => (hcalls p hp).1) el hbase hA0
  set elF := calls.foldl (fun e p => useStateFn e p.1 p.2) el with helF
  obtain ⟨hst, _, hprops, hact⟩ := hJ
  by_cases hF : elF.currentStates = []
  · rw [useStateFn_normal_on_normal elF false hF]
    obtain ⟨h1, h2, h3, h4, h5, h6⟩ := hprops hF
    refine ⟨h1, h2, h3, ?_, h4, h5⟩
    rcases h6 with h | h
    · exact h
    · rw [h, hov]
      simp
  · have hsnap := hact hF
    have hmiss : alookup elF.states PRESERVED_NORMAL_STATE = none := by
      rw [hst]
      exact hnormal
    have hnc : ¬ (elF.currentStates.getLast? = some PRESERVED_NORMAL_STATE ∧
        (false ∨ elF.currentStates.length = 1)) := by
      intro h
      have hmem0 : PRESERVED_NORMAL_STATE ∈ elF.currentStates.getLast? :=
        Option.mem_def.mpr h.1
      obtain ⟨hne, heq⟩ := List.mem_getLast?_eq_getLast hmem0
      exact hA PRESERVED_NORMAL_STATE (heq ▸ List.getLast_mem hne) rfl
    rw [useStateFn_hasState elF PRESERVED_NORMAL_STATE false hF,
      afterSave_toNormal elF false (mkNormalSnapshot el) hnc hmiss hsnap]
    refine ⟨rfl, rfl, rfl, ?_, rfl, rfl⟩
    show some (mkNormalSnapshot el).origin = el.origin
    rw [mkNormalSnapshot, hov]
    rfl

/-- Witness for `state_round_trip`: a node at position `(1,2)` with
origin `(3,4)`, switched to state "a" then layered with "b" and
switched back to normal, reads back its original properties. -/
theorem state_round_trip_witness :
    (useStateFn ([(("a" : String), false), (("b" : String), true)].foldl
        (fun e p => useStateFn e p.1 p.2)
        { position := (1, 2), origin := some (3, 4),
          states := [("a", { position := some (9, 9) }), ("b", { scale := some (5, 5) })] })
      PRESERVED_NORMAL_STATE false).position = (1, 2) := by
  have h := state_round_trip
    { position := (1, 2), origin := some (3, 4),
      states := [("a", { position := some (9, 9) }), ("b", { scale := some (5, 5) })] }
    [(("a" : String), false), (("b" : String), true)]
    rfl rfl (by decide) (by decide)
  exact h.1

theorem firstSome_idem {α : Type} (o : Option α) : firstSome o o = o := by
  cases o <;> rfl

theorem bind_getD_emptyTC {α : Type} (f : TextConfig → Option α)
    (hfe : f emptyTC = none) (o : Option TextConfig) :
    f (o.getD emptyTC) = o.bind f := by
  cases o with
  | none => simpa using hfe
  | some t => rfl

theorem layeredTC_bind {α : Type} (f : TextConfig → Option α)
    (hf : ∀ t s : TextConfig, f (extendTC t s) = firstSome (f s) (f t))
    (hfe : f emptyTC = none) (base tcA tcB : Option TextConfig) :
    (stateTextConfigMerge (stateTextConfigMerge base tcA) tcB).bind f
      = overlayField (tcB.bind f) (tcA.bind f) (base.bind f) := by
  cases tcB with
  | none =>
    cases tcA with
    | none =>
      cases base <;> simp [stateTextConfigMerge, overlayField, firstSome]
    | some ta =>
      show f (extendTC (base.getD emptyTC) ta) = _
      rw [hf, bind_getD_emptyTC f hfe]
      simp [overlayField, firstSome]
  | some tb =>
    cases tcA with
    | none =>
      show f (extendTC (base.getD emptyTC) tb) = _
      rw [hf, bind_getD_emptyTC f hfe]
      simp [overlayField, firstSome]
    | some ta =>
      show f (extendTC ((some (extendTC (base.getD emptyTC) ta)).getD emptyTC) tb) = _
      rw [Option.getD_some, hf, hf, bind_getD_emptyTC f hfe]
      simp [overlayField, firstSome]

theorem layeredTC_bind_same {α : Type} (f : TextConfig → Option α)
    (hf : ∀ t s : TextConfig, f (extendTC t s) = firstSome (f s) (f t))
    (hfe : f emptyTC = none) (base tcA : Option TextConfig) :
    (stateTextConfigMerge base tcA).bind f
      = overlayField (tcA.bind f) (tcA.bind f) (base.bind f) := by
  cases tcA with
  | none =>
    cases base <;> simp [stateTextConfigMerge, overlayField, firstSome]
  | some ta =>
    show f (extendTC (base.getD emptyTC) ta) = _
    rw [hf, bind_getD_emptyTC f hfe]
    simp [overlayField]
    cases f ta <;> simp [firstSome]

theorem useState_first_from_empty (el : Element) (a : String) (sa : ElementState)
    (hempty : el.currentStates = []) (ha : a ≠ PRESERVED_NORMAL_STATE)
    (hsa : alookup el.states a = some sa) :
    useStateFn el a false =
      { el with
          position := sa.position.getD el.position
          scale := sa.scale.getD el.scale
          rotation := sa.rotation.getD el.rotation
          origin := some (sa.origin.getD (el.origin.getD (0, 0)))
          ignore := sa.ignore.getD el.ignore
          textConfig := stateTextConfigMerge el.textConfig sa.textConfig
          currentStates := [a]
          normalState := some (mkNormalSnapshot el)
          dirty := true
          saveCount := el.saveCount + 1 } := by
  have hs1 : alookup (saveStateToNormalFn el).states a = some sa := hsa
  have hnc : ¬ ((saveStateToNormalFn el).currentStates.getLast? = some a ∧
      ((false : Bool) ∨ (saveStateToNormalFn el).currentStates.length = 1)) := by
    show ¬ (el.currentStates.getLast? = some a ∧ _)
    rw [hempty]
    simp
  rw [useStateFn_empty el a false hempty ha, afterSave_apply _ a false sa ha hs1 hnc,
    if_neg (by simp),
    applyStateObjFn_some_restore _ sa (mkNormalSnapshot el) rfl]
  cases ht : sa.textConfig <;> simp [stateTextConfigMerge, mkNormalSnapshot, ht,
    saveStateToNormalFn]

theorem useState_layer (el1 : Element) (b : String) (sb : ElementState)
    (hne : el1.currentStates ≠ [])
    (hlast : el1.currentStates.getLast? ≠ some b)
    (hb : b ≠ PRESERVED_NORMAL_STATE)
    (hsb : alookup el1.states b = some sb) :
    useStateFn el1 b true =
      { el1 with
          position := sb.position.getD el1.position
          scale := sb.scale.getD el1.scale
          rotation := sb.rotation.getD el1.rotation
          origin :=
            (match sb.origin with
             | some v => some v
             | none => el1.origin)
          ignore := sb.ignore.getD el1.ignore
          textConfig := stateTextConfigMerge el1.textConfig sb.textConfig
          currentStates := el1.currentStates ++ [b]
          dirty := true } := by
  have hnc : ¬ (el1.currentStates.getLast? = some b ∧
      ((true : Bool) ∨ el1.currentStates.length = 1)) := fun h => hlast h.1
  rw [useStateFn_hasState el1 b true hne, afterSave_apply el1 b true sb hb hsb hnc,
    if_pos rfl, applyStateObjFn_some_keep el1 sb]
  cases ht : sb.textConfig <;> simp [stateTextConfigMerge, ht]

/-- C2: on a node with states "a" and "b" defined and none active,
after `useStates(["a","b"])` every primary property reads state "b"'s
value when "b" defines the key, else state "a"'s, else the normal
baseline captured before the switch; the label configuration obeys
the same precedence key by key (its per-state configs are shallow
merged over the baseline). -/
theorem layered_override_precedence (el : Element) (a b : String)
    (sa sb : ElementState)
    (hempty : el.currentStates = [])
    (ha : a ≠ PRESERVED_NORMAL_STATE) (hb : b ≠ PRESERVED_NORMAL_STATE)
    (hsa : alookup el.states a = some sa) (hsb : alookup el.states b = some sb) :
    (useStatesFn el [a, b]).position =
      (firstSome sb.position sa.position).getD el.position ∧
    (useStatesFn el [a, b]).scale =
      (firstSome sb.scale sa.scale).getD el.scale ∧
    (useStatesFn el [a, b]).rotation =
      (firstSome sb.rotation sa.rotation).getD el.rotation ∧
    (useStatesFn el [a, b]).ignore =
      (firstSome sb.ignore sa.ignore).getD el.ignore ∧
    (useStatesFn el [a, b]).origin =
      some ((firstSome sb.origin sa.origin).getD (el.origin.getD (0, 0))) ∧
    (useStatesFn el [a, b]).textConfig.bind TextConfig.position =
      overlayField (sb.textConfig.bind TextConfig.position)
        (sa.textConfig.bind TextConfig.position)
        (el.textConfig.bind TextConfig.position) ∧
    (useStatesFn el [a, b]).textConfig.bind TextConfig.rotation =
      overlayField (sb.textConfig.bind TextConfig.rotation)
        (sa.textConfig.bind TextConfig.rotation)
        (el.textConfig.bind TextConfig.rotation) ∧
    (useStatesFn el [a, b]).textConfig.bind TextConfig.offset =
      overlayField (sb.textConfig.bind TextConfig.offset)
        (sa.textConfig.bind TextConfig.offset)
        (el.textConfig.bind TextConfig.offset) ∧
    (useStatesFn el [a, b]).textConfig.bind TextConfig.distance =
      overlayField (sb.textConfig.bind TextConfig.distance)
        (sa.textConfig.bind TextConfig.distance)
        (el.textConfig.bind TextConfig.distance) ∧
    (useStatesFn el [a, b]).textConfig.bind TextConfig.localSpace =
      overlayField (sb.textConfig.bind TextConfig.localSpace)
        (sa.textConfig.bind TextConfig.localSpace)
        (el.textConfig.bind TextConfig.localSpace) ∧
    (useStatesFn el [a, b]).textConfig.bind TextConfig.insideFill =
      overlayField (sb.textConfig.bind TextConfig.insideFill)
        (sa.textConfig.bind TextConfig.insideFill)
        (el.textConfig.bind TextConfig.insideFill) ∧
    (useStatesFn el [a, b]).textConfig.bind TextConfig.insideStroke =
      overlayField (sb.textConfig.bind TextConfig.insideStroke)
        (sa.textConfig.bind TextConfig.insideStroke)
        (el.textConfig.bind TextConfig.insideStroke) := by
  have hfold : useStatesFn el [a, b] = useStateFn (useStateFn el a false) b true := rfl
  have hel1 := useState_first_from_empty el a sa hempty ha hsa
  by_cases hab : a = b
  · subst hab
    have hss : sa = sb := by
      rw [hsa] at hsb
      exact Option.some.inj hsb
    subst hss
    have hnoop : useStateFn (useStateFn el a false) a true = useStateFn el a false := by
      rw [hel1]
      rw [useStateFn_hasState _ a true (by simp),
        afterSave_noChange _ a true (by simp) (Or.inl rfl)]
    rw [hfold, hnoop, hel1]
    refine ⟨?_, ?_, ?_, ?_, ?_, ?_, ?_, ?_, ?_, ?_, ?_, ?_⟩
    · rw [firstSome_idem]
    · rw [firstSome_idem]
    · rw [firstSome_idem]
    · rw [firstSome_idem]
    · rw [firstSome_idem]
    · exact layeredTC_bind_same _ (fun t s => rfl) rfl el.textConfig sa.textConfig
    · exact layeredTC_bind_same _ (fun t s => rfl) rfl el.textConfig sa.textConfig
    · exact layeredTC_bind_same _ (fun t s => rfl) rfl el.textConfig sa.textConfig
    · exact layeredTC_bind_same _ (fun t s => rfl) rfl el.textConfig sa.textConfig
    · exact layeredTC_bind_same _ (fun t s => rfl) rfl el.textConfig sa.textConfig
    · exact layeredTC_bind_same _ (fun t s => rfl) rfl el.textConfig sa.textConfig
    · exact layeredTC_bind_same _ (fun t s => rfl) rfl el.textConfig sa.textConfig
  · have hne1 : (useStateFn el a false).currentStates ≠ [] := by
      rw [hel1]
      simp
    have hlast1 : (useStateFn el a false).currentStates.getLast? ≠ some b := by
      rw [hel1]
      simpa using hab
    have hsb1 : alookup (useStateFn el a false).states b = some sb := by
      rw [hel1]
      exact hsb
    have hel2 := useState_layer (useStateFn el a false) b sb hne1 hlast1 hb hsb1
    rw [hfold, hel2, hel1]
    refine ⟨?_, ?_, ?_, ?_, ?_, ?_, ?_, ?_, ?_, ?_, ?_, ?_⟩
    · cases sb.position <;> simp [firstSome]
    · cases sb.scale <;> simp [firstSome]
    · cases sb.rotation <;> simp [firstSome]
    · cases sb.ignore <;> simp [firstSome]
    · cases sb.origin <;> simp [firstSome]
    · exact layeredTC_bind _ (fun t s => rfl) rfl el.textConfig sa.textConfig sb.textConfig
    · exact layeredTC_bind _ (fun t s => rfl) rfl el.textConfig sa.textConfig sb.textConfig
    · exact layeredTC_bind _ (fun t s => rfl) rfl el.textConfig sa.textConfig sb.textConfig
    · exact layeredTC_bind _ (fun t s => rfl) rfl el.textConfig sa.textConfig sb.textConfig
    · exact layeredTC_bind _ (fun t s => rfl) rfl el.textConfig sa.textConfig sb.textConfig
    · exact layeredTC_bind _ (fun t s => rfl) rfl el.textConfig sa.textConfig sb.textConfig
    · exact layeredTC_bind _ (fun t s => rfl) rfl el.textConfig sa.textConfig sb.textConfig

/-- Witness for `layered_override_precedence`: states "a" (defines
position) and "b" (defines scale) layered on a node at `(1,2)`:
position comes from "a", scale from "b", rotation from the
baseline. -/
theorem layered_override_precedence_witness :
    (useStatesFn { position := (1, 2), rotation := 5, states := [("a", { position := some (9, 9) }), ("b", { scale := some (7, 7) })] } ["a", "b"]).position = (9, 9) := by
  have h := layered_override_precedence
    { position := (1, 2), rotation := 5,
      states := [("a", { position := some (9, 9) }), ("b", { scale := some (7, 7) })] }
    "a" "b" { position := some (9, 9) } { scale := some (7, 7) }
    rfl (by decide) (by decide) (by decide) (by decide)
  simpa [firstSome] using h.1

theorem alookup_cons {κ α : Type} [DecidableEq κ] (k2 : κ) (v2 : α)
    (rest : List (κ × α)) (k : κ) :
    alookup ((k2, v2) :: rest) k = if k2 = k then some v2 else alookup rest k := by
  by_cases h : k2 = k <;> simp [alookup, List.find?_cons, h]

theorem alookup_mem_keys {κ α : Type} [DecidableEq κ] (l : List (κ × α)) (k : κ)
    (v : α) (h : alookup l k = some v) : k ∈ l.map Prod.fst := by
  induction l with
  | nil => simp [alookup] at h
  | cons p rest ih =>
    rw [show p = (p.1, p.2) from rfl, alookup_cons] at h
    by_cases hp : p.1 = k
    · simp [hp]
    · rw [if_neg hp] at h
      simp [ih h]

theorem alookup_aset_self {κ α : Type} [DecidableEq κ] (l : List (κ × α)) (k : κ)
    (v : α) : alookup (aset l k v) k = some v := by
  induction l with
  | nil => simp [aset, alookup_cons]
  | cons p rest ih =>
    rw [show p = (p.1, p.2) from rfl, aset]
    by_cases h : p.1 = k
    · simp [h, alookup_cons]
    · simp only [if_neg h, alookup_cons, h, if_false]
      exact ih

theorem alookup_aset_ne {κ α : Type} [DecidableEq κ] (l : List (κ × α)) (k k2 : κ)
    (v : α) (h : k2 ≠ k) : alookup (aset l k v) k2 = alookup l k2 := by
  induction l with
  | nil =>
    show alookup [(k, v)] k2 = alookup [] k2
    rw [alookup_cons, if_neg (Ne.symm h)]
  | cons p rest ih =>
    rw [show p = (p.1, p.2) from rfl, aset]
    by_cases hp : p.1 = k
    · rw [if_pos hp, alookup_cons, alookup_cons, hp]
      rw [if_neg (fun hh => h hh.symm), if_neg (fun hh => h hh.symm)]
    · rw [if_neg hp, alookup_cons, alookup_cons]
      by_cases hp2 : p.1 = k2
      · rw [if_pos hp2, if_pos hp2]
      · rw [if_neg hp2, if_neg hp2]
        exact ih

/-- C3 counterexample: `animateTo` with target
`{a: 5, b: {c: {d: 1}}}` on a live object `{b: {c: 1}}` throws the
nesting error, but at the moment it is raised the property `a` — a
key processed earlier in the descriptor's order and absent from the
live object — has already been written (it was `undefined` before the
call and reads back `5` after it). -/
theorem nesting_error_after_mutation :
    (animateToShallowTop [("b", JVal.obj [("c", JVal.num 1)])]
        [("a", JVal.num 5), ("b", JVal.obj [("c", JVal.obj [("d", JVal.num 1)])])]
        false).err = some nestErrorMsg ∧
    alookup (animateToShallowTop [("b", JVal.obj [("c", JVal.num 1)])]
        [("a", JVal.num 5), ("b", JVal.obj [("c", JVal.obj [("d", JVal.num 1)])])]
        false).src "a" = some (JVal.num 5) ∧
    alookup [("b", JVal.obj [("c", JVal.num 1)])] "a" = (none : Option JVal) := by
  refine ⟨rfl, rfl, rfl⟩

theorem runCompletions_spec (n k : Nat) (hk : k ≤ n) :
    runCompletions n k = ((n : Int) - k, if k = n then 1 else 0) := by
  induction k with
  | zero =>
    simp only [runCompletions, Function.iterate_zero, id_eq, animateDoneInit,
      Nat.cast_zero, sub_zero]
    by_cases h : n = 0
    · simp [h]
    · rw [if_neg h, if_neg (Ne.symm h)]
  | succ k ih =>
    have hk2 : k ≤ n := Nat.le_of_succ_le hk
    have hlt : k < n := Nat.lt_of_succ_le hk
    rw [runCompletions, Function.iterate_succ_apply', ← runCompletions, ih hk2]
    simp only [doneStep]
    have hkn : ¬ (k = n) := Nat.ne_of_lt hlt
    rw [if_neg hkn]
    rw [Prod.mk.injEq]
    constructor
    · push_cast
      ring
    · by_cases h : k + 1 = n
      · rw [if_pos h, if_pos (by omega)]
      · rw [if_neg h, if_neg (by omega)]

/-- C4: for every non-throwing `animateTo`/`animateFrom` run, with
`n` the number of Animators the merge created, the completion
countdown starts at `n`, the callback has fired exactly once as soon
as all `n` Animators have completed, and zero times before that —
in particular, with `n = 0` it has already fired (synchronously,
before the call returns) after zero completions. -/
theorem animate_completion_counting (source target : List (String × JVal))
    (reverse : Bool) (k : Nat)
    (herr : (animateToShallowTop source target reverse).err = none)
    (hk : k ≤ (animateToShallowTop source target reverse).anims.length) :
    (runCompletions (animateToShallowTop source target reverse).anims.length k).2 =
      (if k = (animateToShallowTop source target reverse).anims.length then 1 else 0) ∧
    (runCompletions (animateToShallowTop source target reverse).anims.length 0).1 =
      ((animateToShallowTop source target reverse).anims.length : Int) := by
  constructor
  · rw [runCompletions_spec _ k hk]
  · rw [runCompletions_spec _ 0 (Nat.zero_le _)]
    simp

/-- Witness for `animate_completion_counting`: animating `a: 1 → 2`
creates one animator; after its single completion the callback has
fired exactly once. -/
theorem animate_completion_counting_witness :
    (runCompletions (animateToShallowTop [("a", JVal.num 1)] [("a", JVal.num 2)]
        false).anims.length 1).2 = 1 := by
  have h := animate_completion_counting [("a", JVal.num 1)] [("a", JVal.num 2)]
    false 1 rfl (by decide)
  rw [h.1]
  rfl

theorem subFold_err {target : List (String × JVal)} {reverse : Bool}
    (ks : List String) (acc : ShallowAcc) (h : acc.err.isSome) :
    ks.foldl (subStep target reverse) acc = acc := by
  induction ks with
  | nil => rfl
  | cons k ks ih =>
    show ks.foldl (subStep target reverse) (subStep target reverse acc k) = acc
    rw [subStep, if_pos h]
    exact ih

theorem topFold_err {target : List (String × JVal)} {reverse : Bool}
    (ks : List String) (acc : TopAcc) (h : acc.err.isSome) :
    ks.foldl (topStep target reverse) acc = acc := by
  induction ks with
  | nil => rfl
  | cons k ks ih =>
    show ks.foldl (topStep target reverse) (topStep target reverse acc k) = acc
    rw [topStep, if_pos h]
    exact ih

theorem subStep_err_val {target : List (String × JVal)} {reverse : Bool}
    (acc : ShallowAcc) (k : String) :
    (subStep target reverse acc k).err = acc.err ∨
      (subStep target reverse acc k).err = some nestErrorMsg := by
  simp only [subStep]
  split_ifs <;> simp

theorem subFold_err_val {target : List (String × JVal)} {reverse : Bool}
    (ks : List String) (acc : ShallowAcc) :
    (ks.foldl (subStep target reverse) acc).err = acc.err ∨
      (ks.foldl (subStep target reverse) acc).err = some nestErrorMsg := by
  induction ks generalizing acc with
  | nil => exact Or.inl rfl
  | cons k ks ih =>
    show (ks.foldl (subStep target reverse) (subStep target reverse acc k)).err = _ ∨ _
    rcases ih (subStep target reverse acc k) with h | h
    · rcases @subStep_err_val target reverse acc k with h2 | h2
      · exact Or.inl (h.trans h2)
      · exact Or.inr (h.trans h2)
    · exact Or.inr h

theorem animateToShallowSub_err_val (topKey : String)
    (source target : List (String × JVal)) (reverse : Bool) :
    (animateToShallowSub topKey source target reverse).err = none ∨
      (animateToShallowSub topKey source target reverse).err = some nestErrorMsg := by
  rw [animateToShallowSub]
  rcases @subFold_err_val target reverse
      (target.map Prod.fst) { src := source, animatableKeys := [], err := none } with
    h | h
  · rw [h]
    simp
  · rw [h]
    simp

theorem topStep_err_val {target : List (String × JVal)} {reverse : Bool}
    (acc : TopAcc) (k : String) :
    (topStep target reverse acc k).err = acc.err ∨
      (topStep target reverse acc k).err = some nestErrorMsg := by
  simp only [topStep]
  split_ifs with h1 h2 h3 h4
  · exact Or.inl rfl
  · have haccerr : acc.err = none := Option.not_isSome_iff_eq_none.mp h1
    rcases hm : (alookup target k).getD JVal.null with _ | n | s | b | es | tf
    · exact Or.inl rfl
    · exact Or.inl rfl
    · exact Or.inl rfl
    · exact Or.inl rfl
    · exact Or.inl rfl
    · rcases hs : (alookup acc.src k).getD JVal.null with _ | n2 | s2 | b2 | es2 | sf
      · exact Or.inl rfl
      · exact Or.inl rfl
      · exact Or.inl rfl
      · exact Or.inl rfl
      · exact Or.inl rfl
      · rcases animateToShallowSub_err_val k sf tf reverse with h | h
        · refine Or.inl ?_
          show (animateToShallowSub k sf tf reverse).err = acc.err
          rw [h, haccerr]
        · exact Or.inr h
  · exact Or.inl rfl
  · exact Or.inl rfl
  · exact Or.inl rfl

theorem topFold_err_val {target : List (String × JVal)} {reverse : Bool}
    (ks : List String) (acc : TopAcc) :
    (ks.foldl (topStep target reverse) acc).err = acc.err ∨
      (ks.foldl (topStep target reverse) acc).err = some nestErrorMsg := by
  induction ks generalizing acc with
  | nil => exact Or.inl rfl
  | cons k ks ih =>
    show (ks.foldl (topStep target reverse) (topStep target reverse acc k)).err = _ ∨ _
    rcases ih (topStep target reverse acc k) with h | h
    · rcases @topStep_err_val target reverse acc k with h2 | h2
      · exact Or.inl (h.trans h2)
      · exact Or.inr (h.trans h2)
    · exact Or.inr h

theorem subStep_preserves_src {target : List (String × JVal)} {reverse : Bool}
    (acc : ShallowAcc) (k K : String) (h : K ≠ k) :
    alookup (subStep target reverse acc k).src K = alookup acc.src K := by
  simp only [subStep]
  split_ifs <;> simp [alookup_aset_ne _ _ _ _ h]

theorem topStep_preserves_src {target : List (String × JVal)} {reverse : Bool}
    (acc : TopAcc) (k K : String) (h : K ≠ k) :
    alookup (topStep target reverse acc k).src K = alookup acc.src K := by
  simp only [topStep]
  split_ifs with h1 h2 h3 h4
  · rfl
  · rcases hm : (alookup target k).getD JVal.null with _ | n | s | b | es | tf
    · rfl
    · rfl
    · rfl
    · rfl
    · rfl
    · rcases hs : (alookup acc.src k).getD JVal.null with _ | n2 | s2 | b2 | es2 | sf
      · rfl
      · rfl
      · rfl
      · rfl
      · rfl
      · exact alookup_aset_ne _ _ _ _ h
  · rfl
  · exact alookup_aset_ne _ _ _ _ h
  · rfl

theorem subFold_nested_errs (subT : List (String × JVal)) (reverse : Bool)
    (k2 : String) (tf : List (String × JVal))
    (ht2 : alookup subT k2 = some (JVal.obj tf)) :
    ∀ (ks2 : List String) (acc2 : ShallowAcc), k2 ∈ ks2 →
      (acc2.err = none → nonNullV (alookup acc2.src k2) = true) →
      (acc2.err = none ∨ acc2.err = some nestErrorMsg) →
      (ks2.foldl (subStep subT reverse) acc2).err = some nestErrorMsg := by
  intro ks2
  induction ks2 with
  | nil =>
    intro acc2 hin
    simp at hin
  | cons k ks ih =>
    intro acc2 hin hnn herr
    rcases herr with he | he
    · by_cases hk : k = k2
      · subst hk
        have hstep : (subStep subT reverse acc2 k).err = some nestErrorMsg := by
          simp only [subStep]
          rw [if_neg (by simp [he]), if_pos (hnn he), ht2]
          rw [if_pos (by rfl)]
        show (ks.foldl (subStep subT reverse) (subStep subT reverse acc2 k)).err = _
        rw [subFold_err ks _ (by rw [hstep]; rfl)]
        exact hstep
      · have hin2 : k2 ∈ ks := by
          rcases List.mem_cons.mp hin with h | h
          · exact absurd h.symm hk
          · exact h
        show (ks.foldl (subStep subT reverse) (subStep subT reverse acc2 k)).err = _
        apply ih (subStep subT reverse acc2 k) hin2
        · intro _
          rw [subStep_preserves_src acc2 k k2 (fun hh => hk hh.symm)]
          exact hnn he
        · rcases @subStep_err_val subT reverse acc2 k with h | h
          · exact Or.inl (h.trans he)
          · exact Or.inr h
    · rw [subFold_err (k :: ks) acc2 (by rw [he]; rfl)]
      exact he

theorem animateToShallowSub_nested_errs (topKey : String)
    (subS subT : List (String × JVal)) (reverse : Bool) (k2 : String)
    (tf : List (String × JVal))
    (ht2 : alookup subT k2 = some (JVal.obj tf))
    (hs2 : nonNullV (alookup subS k2) = true) :
    (animateToShallowSub topKey subS subT reverse).err = some nestErrorMsg := by
  rw [animateToShallowSub]
  have hf := subFold_nested_errs subT reverse k2 tf ht2 (subT.map Prod.fst)
    { src := subS, animatableKeys := [], err := none }
    (alookup_mem_keys _ _ _ ht2) (fun _ => hs2) (Or.inl rfl)
  rw [hf]

theorem topFold_nested_errs (target : List (String × JVal)) (reverse : Bool)
    (K k2 : String) (subT tf : List (String × JVal))
    (htK : alookup target K = some (JVal.obj subT))
    (ht2 : alookup subT k2 = some (JVal.obj tf)) :
    ∀ (ks : List String) (acc : TopAcc), K ∈ ks →
      (acc.err = none → ∃ subS, alookup acc.src K = some (JVal.obj subS) ∧
        nonNullV (alookup subS k2) = true) →
      (acc.err = none ∨ acc.err = some nestErrorMsg) →
      (ks.foldl (topStep target reverse) acc).err = some nestErrorMsg := by
  intro ks
  induction ks with
  | nil =>
    intro acc hin
    simp at hin
  | cons k ks ih =>
    intro acc hin hsub herr
    rcases herr with he | he
    · by_cases hk : k = K
      · subst hk
        obtain ⟨subS, hsK, hs2⟩ := hsub he
        have hstep : (topStep target reverse acc k).err = some nestErrorMsg := by
          simp only [topStep]
          rw [if_neg (by simp [he]), htK, hsK]
          rw [if_pos (by rfl), if_pos (by rfl)]
          show (animateToShallowSub k subS subT reverse).err = some nestErrorMsg
          exact animateToShallowSub_nested_errs k subS subT reverse k2 tf ht2 hs2
        show (ks.foldl (topStep target reverse) (topStep target reverse acc k)).err = _
        rw [topFold_err ks _ (by rw [hstep]; rfl)]
        exact hstep
      · have hin2 : K ∈ ks := by
          rcases List.mem_cons.mp hin with h | h
          · exact absurd h.symm hk
          · exact h
        obtain ⟨subS, hsK, hs2⟩ := hsub he
        show (ks.foldl (topStep target reverse) (topStep target reverse acc k)).err = _
        apply ih (topStep target reverse acc k) hin2
        · intro _
          refine ⟨subS, ?_, hs2⟩
          rw [topStep_preserves_src acc k K (fun hh => hk hh.symm)]
          exact hsK
        · rcases @topStep_err_val target reverse acc k with h | h
          · exact Or.inl (h.trans he)
          · exact Or.inr h
    · rw [topFold_err (k :: ks) acc (by rw [he]; rfl)]
      exact he

/-- C3 as amended: when the animation descriptor holds, inside a
top-level sub-object whose key the live object also carries as a
non-null object, a non-array object under a key the live sub-object
carries non-null (nesting two levels deep), the call fails with the
"unsupported nesting depth" error.  The no-prior-mutation half of
the original claim is false (see `nesting_error_after_mutation`):
descriptor keys processed earlier in iteration order may already have
been assigned to the live object when the error is raised, and the
error is only guaranteed when the live value along the nested path is
set. -/
theorem nesting_guard_errors (source target : List (String × JVal)) (reverse : Bool)
    (K k2 : String) (subS subT tf : List (String × JVal))
    (hsK : alookup source K = some (JVal.obj subS))
    (htK : alookup target K = some (JVal.obj subT))
    (hs2 : nonNullV (alookup subS k2) = true)
    (ht2 : alookup subT k2 = some (JVal.obj tf)) :
    (animateToShallowTop source target reverse).err = some nestErrorMsg := by
  rw [animateToShallowTop]
  have hf := topFold_nested_errs target reverse K k2 subT tf htK ht2
    (target.map Prod.fst)
    { src := source, animatableKeys := [], anims := [], err := none }
    (alookup_mem_keys _ _ _ htK) (fun _ => ⟨subS, hsK, hs2⟩) (Or.inl rfl)
  rw [hf]

/-- Witness for `nesting_guard_errors`: animating
`{style: {shadow: {x: 2}}}` on a live object with
`style.shadow = 1` throws the nesting error. -/
theorem nesting_guard_errors_witness :
    (animateToShallowTop [("style", JVal.obj [("shadow", JVal.num 1)])]
        [("style", JVal.obj [("shadow", JVal.obj [("x", JVal.num 2)])])]
        false).err = some nestErrorMsg := by
  exact nesting_guard_errors
    [("style", JVal.obj [("shadow", JVal.num 1)])]
    [("style", JVal.obj [("shadow", JVal.obj [("x", JVal.num 2)])])]
    false "style" "shadow" [("shadow", JVal.num 1)]
    [("shadow", JVal.obj [("x", JVal.num 2)])] [("x", JVal.num 2)]
    rfl rfl rfl rfl

theorem nonNullV_some_of_not_null (v : JVal) (hv : isNullV v = false) :
    nonNullV (some v) = true := by
  cases v <;> simp_all [nonNullV, isNullV]

theorem topStep_animatable_evolution {target : List (String × JVal)} {reverse : Bool}
    (acc : TopAcc) (k : String) :
    (topStep target reverse acc k).animatableKeys = acc.animatableKeys ∨
      (topStep target reverse acc k).animatableKeys = acc.animatableKeys ++ [k] := by
  simp only [topStep]
  split_ifs
  · exact Or.inl rfl
  · rcases hm : (alookup target k).getD JVal.null with _ | n | s | b | es | tf
    · exact Or.inl rfl
    · exact Or.inl rfl
    · exact Or.inl rfl
    · exact Or.inl rfl
    · exact Or.inl rfl
    · rcases hs : (alookup acc.src k).getD JVal.null with _ | n2 | s2 | b2 | es2 | sf
      · exact Or.inl rfl
      · exact Or.inl rfl
      · exact Or.inl rfl
      · exact Or.inl rfl
      · exact Or.inl rfl
      · exact Or.inl rfl
  · exact Or.inr rfl
  · exact Or.inl rfl
  · exact Or.inl rfl

theorem topFold_after (target : List (String × JVal)) (K : String) (v : JVal) :
    ∀ (ks : List String) (acc : TopAcc),
      ks.Nodup → (∀ x ∈ acc.animatableKeys, x ∉ ks) →
      K ∈ acc.animatableKeys → acc.animatableKeys.Nodup →
      alookup acc.src K = some v →
      (ks.foldl (topStep target true) acc).err ≠ none ∨
        (alookup (ks.foldl (topStep target true) acc).src K = some v ∧
          K ∈ (ks.foldl (topStep target true) acc).animatableKeys ∧
          (ks.foldl (topStep target true) acc).animatableKeys.Nodup) := by
  intro ks
  induction ks with
  | nil =>
    intro acc _ _ hK hnd hsrc
    exact Or.inr ⟨hsrc, hK, hnd⟩
  | cons k ks ih =>
    intro acc hksnd hfresh hK hnd hsrc
    have hkK : K ≠ k := by
      intro hcon
      exact hfresh K hK (by rw [hcon]; exact List.mem_cons_self k ks)
    have hknotin : k ∉ acc.animatableKeys := by
      intro hcon
      exact hfresh k hcon (List.mem_cons_self k ks)
    rcases hse : (topStep target true acc k).err with _ | e
    · show (ks.foldl (topStep target true) (topStep target true acc k)).err ≠ none ∨ _
      apply ih (topStep target true acc k) (List.Nodup.of_cons hksnd)
      · intro x hx
        rcases @topStep_animatable_evolution target true acc k
            with h | h
        · rw [h] at hx
          exact fun hcon => hfresh x hx (List.mem_cons_of_mem k hcon)
        · rw [h] at hx
          rcases List.mem_append.mp hx with h2 | h2
          · exact fun hcon => hfresh x h2 (List.mem_cons_of_mem k hcon)
          · rw [List.mem_singleton] at h2
            rw [h2]
            exact (List.nodup_cons.mp hksnd).1
      · rcases @topStep_animatable_evolution target true acc k
            with h | h
        · rw [h]
          exact hK
        · rw [h]
          exact List.mem_append.mpr (Or.inl hK)
      · rcases @topStep_animatable_evolution target true acc k
            with h | h
        · rw [h]
          exact hnd
        · rw [h]
          simp [List.nodup_append, hnd, hknotin]
      · rw [topStep_preserves_src acc k K hkK]
        exact hsrc
    · show (ks.foldl (topStep target true) (topStep target true acc k)).err ≠ none ∨ _
      rw [topFold_err ks _ (by rw [hse]; rfl)]
      exact Or.inl (by rw [hse]; simp)

theorem topFold_reverse_invariant (target : List (String × JVal))
    (K : String) (v w : JVal)
    (hv : isNullV v = false)
    (htK : alookup target K = some w)
    (hwo : isObjectNotArray w = false) :
    ∀ (ks : List String) (acc : TopAcc),
      ks.Nodup → (∀ x ∈ acc.animatableKeys, x ∉ ks) →
      K ∈ ks → K ∉ acc.animatableKeys → acc.animatableKeys.Nodup →
      alookup acc.src K = some v → acc.err = none →
      (ks.foldl (topStep target true) acc).err ≠ none ∨
        (alookup (ks.foldl (topStep target true) acc).src K = some v ∧
          K ∈ (ks.foldl (topStep target true) acc).animatableKeys ∧
          (ks.foldl (topStep target true) acc).animatableKeys.Nodup) := by
  intro ks
  induction ks with
  | nil =>
    intro acc _ _ hin
    simp at hin
  | cons k ks ih =>
    intro acc hksnd hfresh hin hKnot hnd hsrc herr
    by_cases hk : k = K
    · subst hk
      have hstep : topStep target true acc k =
          { acc with animatableKeys := acc.animatableKeys ++ [k] } := by
        simp only [topStep]
        rw [if_neg (by simp [herr]), hsrc,
          if_pos (nonNullV_some_of_not_null v hv), htK]
        rw [if_neg (by simp [hwo])]
      rw [List.foldl_cons, hstep]
      apply topFold_after target k v ks _ (List.Nodup.of_cons hksnd)
      · intro x hx
        rcases List.mem_append.mp hx with h2 | h2
        · exact fun hcon => hfresh x h2 (List.mem_cons_of_mem k hcon)
        · rw [List.mem_singleton] at h2
          rw [h2]
          exact (List.nodup_cons.mp hksnd).1
      · exact List.mem_append.mpr (Or.inr (List.mem_singleton.mpr rfl))
      · simp [List.nodup_append, hnd, hKnot]
      · exact hsrc
    · have hin2 : K ∈ ks := by
        rcases List.mem_cons.mp hin with h | h
        · exact absurd h.symm hk
        · exact h
      rcases hse : (topStep target true acc k).err with _ | e
      · show (ks.foldl (topStep target true) (topStep target true acc k)).err ≠ none ∨ _
        apply ih (topStep target true acc k) (List.Nodup.of_cons hksnd)
        · intro x hx
          rcases @topStep_animatable_evolution target true acc k
              with h | h
          · rw [h] at hx
            exact fun hcon => hfresh x hx (List.mem_cons_of_mem k hcon)
          · rw [h] at hx
            rcases List.mem_append.mp hx with h2 | h2
            · exact fun hcon => hfresh x h2 (List.mem_cons_of_mem k hcon)
            · rw [List.mem_singleton] at h2
              rw [h2]
              exact (List.nodup_cons.mp hksnd).1
        · exact hin2
        · rcases @topStep_animatable_evolution target true acc k
              with h | h
          · rw [h]
            exact hKnot
          · rw [h]
            intro hcon
            rcases List.mem_append.mp hcon with h2 | h2
            · exact hKnot h2
            · rw [List.mem_singleton] at h2
              exact hk h2.symm
        · rcases @topStep_animatable_evolution target true acc k
              with h | h
          · rw [h]
            exact hnd
          · rw [h]
            have hknotin : k ∉ acc.animatableKeys := by
              intro hcon
              exact hfresh k hcon (List.mem_cons_self k ks)
            simp [List.nodup_append, hnd, hknotin]
        · rw [topStep_preserves_src acc k K (fun hh => hk hh.symm)]
          exact hsrc
        · exact hse
      · show (ks.foldl (topStep target true) (topStep target true acc k)).err ≠ none ∨ _
        rw [topFold_err ks _ (by rw [hse]; rfl)]
        exact Or.inl (by rw [hse]; simp)

theorem reverseSwap_preserves (target : List (String × JVal)) (K : String) :
    ∀ (ks : List String) (src : List (String × JVal)), K ∉ ks →
      alookup (reverseSwap target ks src).2 K = alookup src K := by
  intro ks
  induction ks with
  | nil => intro src _; rfl
  | cons k ks ih =>
    intro src hnot
    have hkK : K ≠ k := fun h => hnot (by rw [h]; exact List.mem_cons_self k ks)
    have hnot2 : K ∉ ks := fun h => hnot (List.mem_cons_of_mem k h)
    show alookup (reverseSwap target ks
      (aset src k ((alookup target k).getD JVal.null))).2 K = _
    rw [ih _ hnot2, alookup_aset_ne _ _ _ _ hkK]

theorem reverseSwap_spec (target : List (String × JVal)) (K : String) (v w : JVal)
    (htK : alookup target K = some w) :
    ∀ (ks : List String) (src : List (String × JVal)), ks.Nodup → K ∈ ks →
      alookup src K = some v →
      alookup (reverseSwap target ks src).1 K = some v ∧
      alookup (reverseSwap target ks src).2 K = some w := by
  intro ks
  induction ks with
  | nil =>
    intro src _ hin
    simp at hin
  | cons k ks ih =>
    intro src hnd hin hsrc
    by_cases hk : k = K
    · subst hk
      constructor
      · show alookup ((k, (alookup src k).getD JVal.null) ::
          (reverseSwap target ks (aset src k ((alookup target k).getD JVal.null))).1) k
            = some v
        rw [alookup_cons, if_pos rfl, hsrc, Option.getD_some]
      · show alookup (reverseSwap target ks
          (aset src k ((alookup target k).getD JVal.null))).2 k = some w
        rw [reverseSwap_preserves target k ks _ (List.nodup_cons.mp hnd).1,
          alookup_aset_self, htK, Option.getD_some]
    · have hin2 : K ∈ ks := by
        rcases List.mem_cons.mp hin with h | h
        · exact absurd h.symm hk
        · exact h
      have hsrc2 : alookup (aset src k ((alookup target k).getD JVal.null)) K = some v := by
        rw [alookup_aset_ne _ _ _ _ (fun hh => hk hh.symm)]
        exact hsrc
      have hih := ih (aset src k ((alookup target k).getD JVal.null))
        (List.Nodup.of_cons hnd) hin2 hsrc2
      constructor
      · show alookup ((k, (alookup src k).getD JVal.null) ::
          (reverseSwap target ks (aset src k ((alookup target k).getD JVal.null))).1) K
            = some v
        rw [alookup_cons, if_neg hk]
        exact hih.1
      · exact hih.2

/-- C5: in a reverse (`animateFrom`) merge that completes without the
nesting error, every top-level animatable key — present non-null on
both the live object and the descriptor, with a non-object descriptor
value — is synchronously overwritten with the descriptor's value, and
the value the live object held before the call is recorded as that
key's end keyframe of the Animator created for the element itself, so
the animation plays back to the original value.  `Nodup` on the
descriptor's keys mirrors the uniqueness of JS object keys. -/
theorem animateToShallowTop_err (source target : List (String × JVal))
    (reverse : Bool) :
    (animateToShallowTop source target reverse).err =
      ((target.map Prod.fst).foldl (topStep target reverse)
        ⟨source, [], [], none⟩ : TopAcc).err := by
  rw [animateToShallowTop]
  rcases h : ((target.map Prod.fst).foldl (topStep target reverse)
      ⟨source, [], [], none⟩ : TopAcc).err with _ | e
  · rfl
  · rfl

theorem animateToShallowTop_ok (source target : List (String × JVal))
    (reverse : Bool)
    (h : ((target.map Prod.fst).foldl (topStep target reverse)
      ⟨source, [], [], none⟩ : TopAcc).err = none) :
    (animateToShallowTop source target reverse).src =
      (finishLevel "" reverse target
        ⟨((target.map Prod.fst).foldl (topStep target reverse)
            ⟨source, [], [], none⟩ : TopAcc).src,
         ((target.map Prod.fst).foldl (topStep target reverse)
            ⟨source, [], [], none⟩ : TopAcc).animatableKeys, none⟩).1 ∧
    (animateToShallowTop source target reverse).anims =
      ((target.map Prod.fst).foldl (topStep target reverse)
          ⟨source, [], [], none⟩ : TopAcc).anims ++
        (finishLevel "" reverse target
          ⟨((target.map Prod.fst).foldl (topStep target reverse)
              ⟨source, [], [], none⟩ : TopAcc).src,
           ((target.map Prod.fst).foldl (topStep target reverse)
              ⟨source, [], [], none⟩ : TopAcc).animatableKeys, none⟩).2.toList := by
  rw [animateToShallowTop, h]
  exact ⟨rfl, rfl⟩

/-- C5: in a reverse (`animateFrom`) merge that completes without the
nesting error, every top-level animatable key — present non-null on
both the live object and the descriptor, with a non-object descriptor
value — is synchronously overwritten with the descriptor's value, and
the value the live object held before the call is recorded as that
key's end keyframe of the Animator created for the element itself, so
the animation plays back to the original value.  `Nodup` on the
descriptor's keys mirrors the uniqueness of JS object keys. -/
theorem animate_from_symmetry (source target : List (String × JVal))
    (K : String) (v w : JVal)
    (hnd : (target.map Prod.fst).Nodup)
    (hsK : alookup source K = some v) (hv : isNullV v = false)
    (htK : alookup target K = some w) (hw : isObjectNotArray w = false)
    (herr : (animateToShallowTop source target true).err = none) :
    alookup (animateToShallowTop source target true).src K = some w ∧
    ∃ a ∈ (animateToShallowTop source target true).anims,
      a.topKey = "" ∧ alookup a.endVals K = some v := by
  have hfold : ((target.map Prod.fst).foldl (topStep target true)
      ⟨source, [], [], none⟩ : TopAcc).err = none := by
    rw [animateToShallowTop_err] at herr
    exact herr
  obtain ⟨hsrc_eq, hanims_eq⟩ := animateToShallowTop_ok source target true hfold
  rcases topFold_reverse_invariant target K v w hv htK hw
      (target.map Prod.fst) ⟨source, [], [], none⟩
      hnd (by intro x hx; simp at hx) (alookup_mem_keys _ _ _ htK)
      (by simp) (by simp) hsK rfl with hbad | hgood
  · exact absurd hfold hbad
  · obtain ⟨hsrcK, hKmem, hKnd⟩ := hgood
    have hlen : ((target.map Prod.fst).foldl (topStep target true)
        ⟨source, [], [], none⟩ : TopAcc).animatableKeys.length > 0 :=
      List.length_pos.mpr (List.ne_nil_of_mem hKmem)
    have hswap := reverseSwap_spec target K v w htK
      ((target.map Prod.fst).foldl (topStep target true)
        ⟨source, [], [], none⟩ : TopAcc).animatableKeys
      ((target.map Prod.fst).foldl (topStep target true)
        ⟨source, [], [], none⟩ : TopAcc).src
      hKnd hKmem hsrcK
    constructor
    · rw [hsrc_eq, finishLevel, if_pos hlen, if_pos rfl]
      exact hswap.2
    · rw [hanims_eq, finishLevel, if_pos hlen, if_pos rfl]
      exact ⟨⟨"", _, _⟩,
        List.mem_append_right _ (List.mem_singleton.mpr rfl), rfl, hswap.1⟩

/-- Witness for `animate_from_symmetry`: `animateFrom` of
`{position: [0, 0]}` on a node at `position: [10, 10]` writes
`[0, 0]` into the live object and records `[10, 10]` as the end
keyframe. -/
theorem animate_from_symmetry_witness :
    alookup (animateToShallowTop
        [("position", JVal.arr [JVal.num 10, JVal.num 10])]
        [("position", JVal.arr [JVal.num 0, JVal.num 0])] true).src "position" =
      some (JVal.arr [JVal.num 0, JVal.num 0]) := by
  have h := animate_from_symmetry
    [("position", JVal.arr [JVal.num 10, JVal.num 10])]
    [("position", JVal.arr [JVal.num 0, JVal.num 0])]
    "position" (JVal.arr [JVal.num 10, JVal.num 10])
    (JVal.arr [JVal.num 0, JVal.num 0])
    (by decide) rfl rfl rfl rfl rfl
  exact h.1

theorem getE_setE_self (w : World) (i : Nat) (e : ENode) :
    getE (setE w i e) i = e := by
  simp [getE, setE, alookup_aset_self]

theorem getE_setE_ne (w : World) (i j : Nat) (e : ENode) (h : j ≠ i) :
    getE (setE w i e) j = getE w j := by
  simp [getE, setE, alookup_aset_ne _ _ _ _ h]

theorem getE_updE_self (w : World) (i : Nat) (f : ENode → ENode) :
    getE (updE w i f) i = f (getE w i) := by
  simp [updE, getE_setE_self]

theorem getE_updE_ne (w : World) (i j : Nat) (f : ENode → ENode) (h : j ≠ i) :
    getE (updE w i f) j = getE w j := by
  simp [updE, getE_setE_ne w i j _ h]

theorem getE_addAnimatorsToSched (w : World) (zr : Nat) (animators : List Nat)
    (j : Nat) : getE (addAnimatorsToSched w zr animators) j = getE w j := rfl

theorem getE_removeAnimatorsFromSched (w : World) (zr : Nat)
    (animators : List Nat) (j : Nat) :
    getE (removeAnimatorsFromSched w zr animators) j = getE w j := rfl

theorem sched_updE (w : World) (i : Nat) (f : ENode → ENode) :
    (updE w i f).sched = w.sched := rfl

theorem sched_addAnimatorsToSched (w : World) (zr : Nat) (animators : List Nat) :
    (addAnimatorsToSched w zr animators).sched =
      w.sched ++ animators.map (fun a => (zr, a)) := rfl

theorem sched_removeAnimatorsFromSched (w : World) (zr : Nat)
    (animators : List Nat) :
    (removeAnimatorsFromSched w zr animators).sched =
      animators.foldl (fun s a => s.erase (zr, a)) w.sched := rfl

/-- C8 counterexample: node 2 claims clip path 3 (with the matching
back-reference); node 1 then calls `setClipPath(3)`.  The path's
back-reference is repointed to node 1 and node 1 records the claim,
but node 2's clip relation is NOT cleared: `setClipPath` only
detaches the calling node's own previous clip path, never the
previous owner of the new one, so the claim that the previous owner's
clip relation is cleared is false. -/
theorem setClipPath_stale_previous_owner :
    (getE (setClipPathFn 3 { elems := [(1, {}), (2, { clipPath := some 3 }), (3, { clipTarget := some 2 })] } 1 3) 2).clipPath = some 3 ∧
    (getE (setClipPathFn 3 { elems := [(1, {}), (2, { clipPath := some 3 }), (3, { clipTarget := some 2 })] } 1 3) 3).clipTarget = some 1 ∧
    (getE (setClipPathFn 3 { elems := [(1, {}), (2, { clipPath := some 3 }), (3, { clipTarget := some 2 })] } 1 3) 1).clipPath = some 3 := by
  refine ⟨rfl, rfl, rfl⟩

/-- C8 as amended: `setClipPath(c)` records the claim in both
directions (the node's clip relation and `c`'s back-reference) and
detaches the node's OWN previous clip path (clearing that path's
back-reference and host-context reference) — but it leaves a
different node that previously claimed `c` untouched, with its stale
clip relation still naming `c`.  Both parts are stated for a node
that is not attached to a host (so the host-registration side of
`setClipPath` is inert), the second additionally for a previous clip
path that is not host-registered. -/
theorem setClipPath_claim_behavior :
    (∀ (fuel : Nat) (w : World) (i c b : Nat),
      i ≠ c → b ≠ i → b ≠ c →
      (getE w i).zr = none →
      (getE w i).clipPath = none →
      (getE w b).clipPath = some c →
      (getE (setClipPathFn fuel w i c) i).clipPath = some c ∧
      (getE (setClipPathFn fuel w i c) c).clipTarget = some i ∧
      getE (setClipPathFn fuel w i c) b = getE w b) ∧
    (∀ (fuel : Nat) (w : World) (i c p : Nat),
      i ≠ c → p ≠ c → p ≠ i →
      (getE w i).zr = none →
      (getE w i).clipPath = some p →
      (getE w p).zr = none →
      (getE (setClipPathFn fuel w i c) p).clipTarget = none ∧
      (getE (setClipPathFn fuel w i c) p).zr = none ∧
      (getE (setClipPathFn fuel w i c) i).clipPath = some c ∧
      (getE (setClipPathFn fuel w i c) c).clipTarget = some i) := by
  constructor
  · intro fuel w i c b hic hbi hbc hzr hclip hbclip
    have hci : c ≠ i := Ne.symm hic
    have hw : setClipPathFn fuel w i c =
        updE (updE (updE (updE w i (fun e => { e with clipPath := some c })) c
          (fun e => { e with zr := none })) c
          (fun e => { e with clipTarget := some i })) i
          (fun e => { e with dirty := true }) := by
      simp only [setClipPathFn, hzr, hclip]
    rw [hw]
    refine ⟨?_, ?_, ?_⟩
    · rw [getE_updE_self, getE_updE_ne _ _ _ _ hic, getE_updE_ne _ _ _ _ hic,
        getE_updE_self]
    · rw [getE_updE_ne _ _ _ _ hci, getE_updE_self, getE_updE_self]
    · rw [getE_updE_ne _ _ _ _ hbi, getE_updE_ne _ _ _ _ hbc,
        getE_updE_ne _ _ _ _ hbc, getE_updE_ne _ _ _ _ hbi]
  · intro fuel w i c p hic hpc hpi hzr hclip hpzr
    have hci : c ≠ i := Ne.symm hic
    have hcp : c ≠ p := Ne.symm hpc
    have hip : i ≠ p := Ne.symm hpi
    have hw : setClipPathFn fuel w i c =
        updE (updE (updE (updE (updE (updE (updE (updE w p
          (fun e => { e with zr := none })) p
          (fun e => { e with clipTarget := none })) i
          (fun e => { e with clipPath := none })) i
          (fun e => { e with dirty := true })) i
          (fun e => { e with clipPath := some c })) c
          (fun e => { e with zr := none })) c
          (fun e => { e with clipTarget := some i })) i
          (fun e => { e with dirty := true }) := by
      simp only [setClipPathFn, removeClipPathFn, hzr, hclip, hpzr]
      rw [if_pos hpc]
    rw [hw]
    refine ⟨?_, ?_, ?_, ?_⟩
    · rw [getE_updE_ne _ _ _ _ hpi, getE_updE_ne _ _ _ _ hpc,
        getE_updE_ne _ _ _ _ hpc, getE_updE_ne _ _ _ _ hpi,
        getE_updE_ne _ _ _ _ hpi, getE_updE_ne _ _ _ _ hpi, getE_updE_self]
    · rw [getE_updE_ne _ _ _ _ hpi, getE_updE_ne _ _ _ _ hpc,
        getE_updE_ne _ _ _ _ hpc, getE_updE_ne _ _ _ _ hpi,
        getE_updE_ne _ _ _ _ hpi, getE_updE_ne _ _ _ _ hpi, getE_updE_self,
        getE_updE_self]
    · rw [getE_updE_self, getE_updE_ne _ _ _ _ hic, getE_updE_ne _ _ _ _ hic,
        getE_updE_self]
    · rw [getE_updE_ne _ _ _ _ hci, getE_updE_self, getE_updE_self]

/-- Witness for `setClipPath_claim_behavior` at the concrete worlds:
the stale-owner part on the counterexample world, the own-detach part
on a node 1 that owned path 4 before claiming path 3. -/
theorem setClipPath_claim_behavior_witness :
    (getE (setClipPathFn 3 { elems := [(1, {}), (2, { clipPath := some 3 }), (3, { clipTarget := some 2 })] } 1 3) 1).clipPath = some 3 ∧
    (getE (setClipPathFn 3 { elems := [(1, { clipPath := some 4 }), (4, { clipTarget := some 1 })] } 1 3) 4).clipTarget = none := by
  constructor
  · exact (setClipPath_claim_behavior.1 3
      { elems := [(1, {}), (2, { clipPath := some 3 }), (3, { clipTarget := some 2 })] }
      1 3 2 (by decide) (by decide) (by decide) rfl rfl rfl).1
  · exact (setClipPath_claim_behavior.2 3
      { elems := [(1, { clipPath := some 4 }), (4, { clipTarget := some 1 })] }
      1 3 4 (by decide) (by decide) (by decide) rfl rfl rfl).1

theorem sched_remove_all (zr : Nat) (s : List (Nat × Nat)) (xs : List Nat)
    (hnd : xs.Nodup) (hfresh : ∀ a ∈ xs, (zr, a) ∉ s) :
    xs.foldl (fun l a => l.erase (zr, a)) (s ++ xs.map (fun a => (zr, a))) = s := by
  induction xs generalizing s with
  | nil => simp
  | cons x xs ih =>
    rw [List.foldl_cons, List.map_cons,
      List.erase_append_right _ (hfresh x (List.mem_cons_self x xs)),
      List.erase_cons_head]
    refine ih s (List.Nodup.of_cons hnd) ?_
    intro a ha
    exact hfresh a (List.mem_cons_of_mem x ha)

/-- C9: for a node `i` with clip path `c` attached (and no attached
label on either, `c` itself clipping nothing), `addSelfToZr(host)`
sets both host-context references to `host` and registers every
animator of both with the host's scheduler; `removeSelfFromZr(host)`
then clears both references and removes every one of those
registrations — the clip path is registered and deregistered in
lockstep with its target.  The animator lists are assumed pairwise
distinct and not yet registered, as for distinct live animators. -/
theorem attach_detach_mirroring (w : World) (host i c : Nat)
    (hic : i ≠ c)
    (hclip : (getE w i).clipPath = some c)
    (htext : (getE w i).textContent = none)
    (hcclip : (getE w c).clipPath = none)
    (hctext : (getE w c).textContent = none)
    (hnodup : ((getE w i).animators ++ (getE w c).animators).Nodup)
    (hfresh : ∀ a ∈ (getE w i).animators ++ (getE w c).animators,
      (host, a) ∉ w.sched) :
    (getE (addSelfToZrFn 2 w i host) i).zr = some host ∧
    (getE (addSelfToZrFn 2 w i host) c).zr = some host ∧
    (∀ a ∈ (getE w i).animators ++ (getE w c).animators,
      (host, a) ∈ (addSelfToZrFn 2 w i host).sched) ∧
    (getE (removeSelfFromZrFn 2 (addSelfToZrFn 2 w i host) i host) i).zr = none ∧
    (getE (removeSelfFromZrFn 2 (addSelfToZrFn 2 w i host) i host) c).zr = none ∧
    (∀ a ∈ (getE w i).animators ++ (getE w c).animators,
      (host, a) ∉ (removeSelfFromZrFn 2 (addSelfToZrFn 2 w i host) i host).sched) := by
  have hci : c ≠ i := Ne.symm hic
  have hadd : addSelfToZrFn 2 w i host =
      addAnimatorsToSched
        (updE (addAnimatorsToSched (updE w i (fun e => { e with zr := some host }))
          host (getE w i).animators) c (fun e => { e with zr := some host }))
        host (getE w c).animators := by
    simp only [addSelfToZrFn, getE_addAnimatorsToSched, getE_updE_self,
      getE_updE_ne _ _ _ _ hci, getE_updE_ne _ _ _ _ hic, hclip, htext, hcclip,
      hctext]
  have hAi : getE (addSelfToZrFn 2 w i host) i =
      { getE w i with zr := some host } := by
    rw [hadd, getE_addAnimatorsToSched, getE_updE_ne _ _ _ _ hic,
      getE_addAnimatorsToSched, getE_updE_self]
  have hAc : getE (addSelfToZrFn 2 w i host) c =
      { getE w c with zr := some host } := by
    rw [hadd, getE_addAnimatorsToSched, getE_updE_self, getE_addAnimatorsToSched,
      getE_updE_ne _ _ _ _ hci]
  have hAsched : (addSelfToZrFn 2 w i host).sched =
      w.sched ++ (getE w i).animators.map (fun a => (host, a)) ++
        (getE w c).animators.map (fun a => (host, a)) := by
    rw [hadd, sched_addAnimatorsToSched, sched_updE, sched_addAnimatorsToSched,
      sched_updE]
  have hrem : removeSelfFromZrFn 2 (addSelfToZrFn 2 w i host) i host =
      removeAnimatorsFromSched
        (updE (removeAnimatorsFromSched
          (updE (addSelfToZrFn 2 w i host) i (fun e => { e with zr := none }))
          host (getE w i).animators) c (fun e => { e with zr := none }))
        host (getE w c).animators := by
    simp only [removeSelfFromZrFn, getE_removeAnimatorsFromSched, getE_updE_self,
      getE_updE_ne _ _ _ _ hci, getE_updE_ne _ _ _ _ hic, hAi, hAc, hclip, htext,
      hcclip, hctext]
  have hRsched : (removeSelfFromZrFn 2 (addSelfToZrFn 2 w i host) i host).sched =
      w.sched := by
    rw [hrem, sched_removeAnimatorsFromSched, sched_updE,
      sched_removeAnimatorsFromSched, sched_updE, hAsched, List.append_assoc,
      ← List.map_append, ← List.foldl_append]
    exact sched_remove_all host w.sched _ hnodup hfresh
  refine ⟨?_, ?_, ?_, ?_, ?_, ?_⟩
  · rw [hAi]
  · rw [hAc]
  · intro a ha
    rw [hAsched]
    rcases List.mem_append.mp ha with h2 | h2
    · exact List.mem_append_left _ (List.mem_append_right _
        (List.mem_map.mpr ⟨a, h2, rfl⟩))
    · exact List.mem_append_right _ (List.mem_map.mpr ⟨a, h2, rfl⟩)
  · rw [hrem, getE_removeAnimatorsFromSched, getE_updE_ne _ _ _ _ hic,
      getE_removeAnimatorsFromSched, getE_updE_self]
  · rw [hrem, getE_removeAnimatorsFromSched, getE_updE_self]
  · intro a ha
    rw [hRsched]
    exact hfresh a ha

/-- Witness for `attach_detach_mirroring`: node 1 with clip path 2,
one animator each, attached to host 7 and detached again. -/
theorem attach_detach_mirroring_witness :
    (getE (addSelfToZrFn 2 { elems := [(1, { clipPath := some 2, animators := [10] }), (2, { animators := [20] })] } 1 7) 2).zr = some 7 := by
  have h := attach_detach_mirroring
    { elems := [(1, { clipPath := some 2, animators := [10] }), (2, { animators := [20] })] }
    7 1 2 (by decide) rfl rfl rfl rfl (by decide) (by decide)
  exact h.2.1

end Zr
